import Mathlib

/-!
Verification of the event-streaming layer of the Project-Management-Platform
backend (`backend/shared/shared/messaging/`): the Redis Streams client
(`redis_streams.py`), the typed events (`events.py`), the publisher
(`publisher.py`) and the subscriber (`subscriber.py`).

The Redis Streams store is modelled as an explicit state: a map from stream
name to an append-only entry list, a map from (stream, group) to consumer-group
state (last-delivered cursor plus pending set), a schedule of environment
events injecting connection failures / task cancellation at each network
round trip, and a trace recording every issued Redis command.  Message ids are
modelled as natural numbers (real Redis ids are opaque strings that are
monotonically increasing per stream; the code treats them opaquely, so only
their order matters).  Each Python `await` of a Redis command consumes one
tick of the schedule; a `connFail` tick raises `ConnectionError`, a `cancel`
tick raises `asyncio.CancelledError`.
-/

namespace PMP

/-- A flat string-keyed field map: the wire payload of one stream entry. -/
abbrev Fields := List (String × String)

/-- One record of a stream: the store-assigned message id and the payload. -/
structure StreamEntry where
  id : Nat
  fields : Fields
deriving Repr, DecidableEq

/-- A named append-only stream: its entries plus the last id ever assigned
(which survives trimming, as in Redis). -/
structure StreamState where
  entries : List StreamEntry
  lastId : Nat
deriving Repr, DecidableEq

def emptyStream : StreamState := ⟨[], 0⟩

/-- Consumer-group state over one stream: the last-delivered cursor and the
pending entry list (message id together with the consumer that claimed it). -/
structure GroupState where
  lastDelivered : Nat
  pending : List (Nat × String)
deriving Repr, DecidableEq

/-- Environment event injected at one network round trip. -/
inductive Tick
  | ok
  | connFail
  | cancel
deriving Repr, DecidableEq

/-- Errors surfaced by the Redis client: `redis.ConnectionError`,
`redis.ResponseError` (carrying the server message), and
`asyncio.CancelledError` delivered while awaiting the command. -/
inductive RedisErr
  | connectionError
  | responseError (msg : String)
  | cancelled
deriving Repr, DecidableEq

/-- Trace record of one issued Redis command.  For `xadd` the result is the
assigned message id (`none` when the command failed). -/
inductive RedisCall
  | xadd (stream : String) (fields : Fields) (mid : Option Nat)
  | xgroupCreate (stream group startId : String) (ok : Bool)
  | xreadgroup (group consumer : String) (streams : List String) (ok : Bool)
  | xack (stream group : String) (ids : List Nat) (ok : Bool)
deriving Repr, DecidableEq

/-- The modelled world: the Redis server state, the failure schedule of the
environment, and the command trace (observability only). -/
structure RedisState where
  streams : List (String × StreamState)
  groups : List ((String × String) × GroupState)
  failSchedule : List Tick
  trace : List RedisCall
deriving Repr, DecidableEq

/-- Association-list lookup keyed by decidable equality. -/
def alookup {κ α : Type} [DecidableEq κ] (k : κ) : List (κ × α) → Option α
  | [] => none
  | (k₂, v) :: rest => if k = k₂ then some v else alookup k rest

/-- Association-list insert-or-replace keyed by decidable equality. -/
def aupsert {κ α : Type} [DecidableEq κ] (k : κ) (v : α) : List (κ × α) → List (κ × α)
  | [] => [(k, v)]
  | (k₂, v₂) :: rest => if k = k₂ then (k, v) :: rest else (k₂, v₂) :: aupsert k v rest

/-- The stream stored under name `s` (a stream that was never touched behaves
as the empty stream). -/
def RedisState.streamOf (st : RedisState) (s : String) : StreamState :=
  (alookup s st.streams).getD emptyStream

/-- The consumer-group state registered under `(s, g)`, if any. -/
def RedisState.groupOf (st : RedisState) (s g : String) : Option GroupState :=
  alookup (s, g) st.groups

/-- Consume one tick of the failure schedule (one network round trip).  An
exhausted schedule means the environment stays healthy. -/
def RedisState.tick (st : RedisState) : Tick × RedisState :=
  match st.failSchedule with
  | [] => (Tick.ok, st)
  | t :: rest => (t, { st with failSchedule := rest })

/-- Append one call to the trace. -/
def RedisState.logCall (st : RedisState) (c : RedisCall) : RedisState :=
  { st with trace := st.trace ++ [c] }

/-- Error value corresponding to a failed tick (`connFail` or `cancel`). -/
def Tick.err : Tick → RedisErr
  | Tick.ok => RedisErr.connectionError
  | Tick.connFail => RedisErr.connectionError
  | Tick.cancel => RedisErr.cancelled

/-- Model of the Redis `XADD stream MAXLEN ~ maxlen * field value ...`
command: assigns the next id, appends the entry, and trims the stream to its
most recent `maxlen` entries.  (The real command with `approximate=True` trims
lazily at macro-node boundaries; exact trimming is a sound stand-in here since
no verified property depends on which of the oldest entries survive.) -/
def Redis.xadd (stream : String) (data : Fields) (maxlen : Nat) (st : RedisState) :
    Except RedisErr Nat × RedisState :=
  let (t, st) := st.tick
  match t with
  | Tick.ok =>
    let ss := st.streamOf stream
    let newId := ss.lastId + 1
    let es := ss.entries ++ [⟨newId, data⟩]
    let es := es.drop (es.length - maxlen)
    (Except.ok newId,
     ({ st with streams := aupsert stream ⟨es, newId⟩ st.streams }).logCall
       (RedisCall.xadd stream data (some newId)))
  | t => (Except.error t.err, st.logCall (RedisCall.xadd stream data none))

/-- Structural digit fold interpreting a decimal string (the numeric prefix
of a Redis entry id; malformed input defaults to 0 as no repository call
site passes one). -/
def natOfChars : List Char → Nat → Option Nat
  | [], acc => some acc
  | c :: rest, acc =>
    if c.isDigit then natOfChars rest (acc * 10 + (c.toNat - 48)) else none

def parseStartId (s : String) : Nat := (natOfChars s.data 0).getD 0

/-- Interpretation of an `XGROUP CREATE` start id: `"$"` is the last id of the
stream at creation time, otherwise the literal id (`"0"` is the beginning). -/
def interpStartId (startId : String) (ss : StreamState) : Nat :=
  if startId = "$" then ss.lastId else parseStartId startId

/-- Model of `XGROUP CREATE stream group start-id MKSTREAM`: fails with a
BUSYGROUP response error when the group already exists; with `mkstream` an
absent stream is created empty; otherwise registers the group with an empty
pending set and the interpreted cursor. -/
def Redis.xgroupCreate (stream group startId : String) (mkstream : Bool)
    (st : RedisState) : Except RedisErr Unit × RedisState :=
  let (t, st) := st.tick
  match t with
  | Tick.ok =>
    match st.groupOf stream group with
    | some _ =>
      (Except.error (RedisErr.responseError "BUSYGROUP Consumer Group name already exists"),
       st.logCall (RedisCall.xgroupCreate stream group startId false))
    | none =>
      if (alookup stream st.streams).isNone && !mkstream then
        (Except.error (RedisErr.responseError "ERR The XGROUP subcommand requires the key to exist"),
         st.logCall (RedisCall.xgroupCreate stream group startId false))
      else
        let ss := st.streamOf stream
        let streams := if (alookup stream st.streams).isSome then st.streams
          else aupsert stream emptyStream st.streams
        (Except.ok (),
         ({ st with streams := streams,
                    groups := aupsert (stream, group) ⟨interpStartId startId ss, []⟩ st.groups
          }).logCall (RedisCall.xgroupCreate stream group startId true))
  | t => (Except.error t.err, st.logCall (RedisCall.xgroupCreate stream group startId false))

/-- Delivery of new messages (cursor `">"`) to one consumer of a group: the
entries past the last-delivered cursor, at most `count`, each recorded as
pending for the claiming consumer; the cursor advances to the last delivered
id. -/
def deliverNew (ss : StreamState) (gs : GroupState) (consumer : String) (count : Nat) :
    List (Nat × Fields) × GroupState :=
  let taken := (ss.entries.filter (fun e => gs.lastDelivered < e.id)).take count
  let cursor := match taken.getLast? with
    | some e => e.id
    | none => gs.lastDelivered
  (taken.map (fun e => (e.id, e.fields)),
   ⟨cursor, gs.pending ++ taken.map (fun e => (e.id, consumer))⟩)

/-- Delivery for an explicit cursor: the consumer's own pending entries with
id greater than the cursor; reading pending history changes no group state. -/
def deliverPending (ss : StreamState) (gs : GroupState) (consumer : String)
    (cursor : Nat) (count : Nat) : List (Nat × Fields) :=
  ((ss.entries.filter
      (fun e => decide (cursor < e.id) && decide ((e.id, consumer) ∈ gs.pending))).take count).map
    (fun e => (e.id, e.fields))

/-- Sequentially serve each requested (stream, cursor) pair of one
`XREADGROUP` call, threading the group-state updates; streams with no
messages are omitted from the reply, as Redis does. -/
def Redis.readStreams (group consumer : String) (count : Nat) :
    List (String × String) → RedisState → List (String × List (Nat × Fields)) × RedisState
  | [], st => ([], st)
  | (s, cur) :: rest, st =>
    match st.groupOf s group with
    | none => Redis.readStreams group consumer count rest st
    | some gs =>
      if cur = ">" then
        let (msgs, gs₂) := deliverNew (st.streamOf s) gs consumer count
        let st₂ := { st with groups := aupsert (s, group) gs₂ st.groups }
        let (restRes, st₃) := Redis.readStreams group consumer count rest st₂
        ((if msgs.isEmpty then restRes else (s, msgs) :: restRes), st₃)
      else
        let msgs := deliverPending (st.streamOf s) gs consumer (parseStartId cur) count
        let (restRes, st₂) := Redis.readStreams group consumer count rest st
        ((if msgs.isEmpty then restRes else (s, msgs) :: restRes), st₂)

/-- Model of `XREADGROUP GROUP group consumer COUNT count BLOCK block
STREAMS ...`: fails with NOGROUP when any requested stream lacks the group;
otherwise serves each stream in order.  An empty reply models the timeout of
the blocking read (not an error). -/
def Redis.xreadgroup (group consumer : String) (streams : List (String × String))
    (count : Nat) (st : RedisState) :
    Except RedisErr (List (String × List (Nat × Fields))) × RedisState :=
  let (t, st) := st.tick
  match t with
  | Tick.ok =>
    if streams.any (fun sc => (st.groupOf sc.1 group).isNone) then
      (Except.error (RedisErr.responseError "NOGROUP No such consumer group"),
       st.logCall (RedisCall.xreadgroup group consumer (streams.map Prod.fst) false))
    else
      let (res, st₂) := Redis.readStreams group consumer count streams st
      (Except.ok res,
       st₂.logCall (RedisCall.xreadgroup group consumer (streams.map Prod.fst) true))
  | t => (Except.error t.err,
          st.logCall (RedisCall.xreadgroup group consumer (streams.map Prod.fst) false))

/-- Model of `XACK stream group id ...`: removes the given ids from the
group's pending set and answers how many were actually pending; ids not
pending (or a missing group) are silently ignored. -/
def Redis.xack (stream group : String) (ids : List Nat) (st : RedisState) :
    Except RedisErr Nat × RedisState :=
  let (t, st) := st.tick
  match t with
  | Tick.ok =>
    match st.groupOf stream group with
    | none => (Except.ok 0, st.logCall (RedisCall.xack stream group ids true))
    | some gs =>
      let removed := gs.pending.filter (fun p => ids.contains p.1)
      let gs₂ : GroupState := ⟨gs.lastDelivered, gs.pending.filter (fun p => !ids.contains p.1)⟩
      (Except.ok removed.length,
       ({ st with groups := aupsert (stream, group) gs₂ st.groups }).logCall
         (RedisCall.xack stream group ids true))
  | t => (Except.error t.err, st.logCall (RedisCall.xack stream group ids false))

/-! ## RedisStreamClient (redis_streams.py) -/

/-- Does the character list start with the given pattern? -/
def charsStartWith : List Char → List Char → Bool
  | _, [] => true
  | [], _ :: _ => false
  | c :: cs, p :: ps => c == p && charsStartWith cs ps

/-- Does the character list contain the given pattern as a contiguous run? -/
def charsContain : List Char → List Char → Bool
  | [], pat => pat.isEmpty
  | c :: rest, pat => charsStartWith (c :: rest) pat || charsContain rest pat

/-- Boolean substring containment, modelling the Python `"BUSYGROUP" in str(e)`
membership test. -/
def strContainsSub (s pat : String) : Bool := charsContain s.data pat.data

/-- Python default of the `maxlen` parameter of `RedisStreamClient.publish`. -/
def DEFAULT_MAXLEN : Nat := 10000

/-- Python default of the `start_id` parameter of
`RedisStreamClient.create_consumer_group`. -/
def DEFAULT_START_ID : String := "0"

namespace RedisStreamClient

/-- `RedisStreamClient.publish(stream, data, maxlen)`: a bare `xadd` with
approximate trimming. -/
def publishWith (stream : String) (data : Fields) (maxlen : Nat) (st : RedisState) :
    Except RedisErr Nat × RedisState :=
  Redis.xadd stream data maxlen st

/-- `RedisStreamClient.publish(stream, data)` with `maxlen` left at its
default of 10000. -/
def publish (stream : String) (data : Fields) (st : RedisState) :
    Except RedisErr Nat × RedisState :=
  publishWith stream data DEFAULT_MAXLEN st

/-- `RedisStreamClient.create_consumer_group(stream, group, start_id)`: calls
`xgroup_create` with `mkstream=True`; returns `True` on creation; a
`ResponseError` whose message contains BUSYGROUP is converted to the return
value `False`; every other exception is re-raised. -/
def create_consumer_group (stream group startId : String) (st : RedisState) :
    Except RedisErr Bool × RedisState :=
  match Redis.xgroupCreate stream group startId true st with
  | (Except.ok _, st₂) => (Except.ok true, st₂)
  | (Except.error (RedisErr.responseError msg), st₂) =>
    if strContainsSub msg "BUSYGROUP" then (Except.ok false, st₂)
    else (Except.error (RedisErr.responseError msg), st₂)
  | (Except.error e, st₂) => (Except.error e, st₂)

/-- `RedisStreamClient.create_consumer_group(stream, group)` with `start_id`
left at its default of `"0"`. -/
def create_consumer_group_default (stream group : String) (st : RedisState) :
    Except RedisErr Bool × RedisState :=
  create_consumer_group stream group DEFAULT_START_ID st

/-- `RedisStreamClient.read_group(group, consumer, streams, count, block)`:
a bare `xreadgroup`; the `result or []` normalisation of an empty reply is
already the model's behaviour.  The `block` milliseconds only bound the
blocking time and play no role in the functional result. -/
def read_group (group consumer : String) (streams : List (String × String))
    (count : Nat) (block : Option Nat) (st : RedisState) :
    Except RedisErr (List (String × List (Nat × Fields))) × RedisState :=
  let _ := block
  Redis.xreadgroup group consumer streams count st

/-- `RedisStreamClient.ack(stream, group, *message_ids)`: a bare `xack`. -/
def ack (stream group : String) (ids : List Nat) (st : RedisState) :
    Except RedisErr Nat × RedisState :=
  Redis.xack stream group ids st

end RedisStreamClient

/-! ## Events (events.py)

Every event field is represented by the string `str(v)` renders it to under
`to_stream_data` (`{k: str(v) for k, v in self.model_dump().items()}`), since
only that rendering crosses the wire: a UUID field holds its canonical hex
string, a datetime its textual form, a float its decimal form.  `Optional`
fields rendered from `None` become the string produced by `pyStrOpt`; the
`bool` field renders via `pyStrBool`; the one `list[UUID]` field renders via
`pyUuidListStr` (Python's list repr, with the quoting of the element reprs
elided since nothing depends on it).  The `event_type` discriminator is a
per-variant constant, as each variant declares it with a fixed default.
Field order follows pydantic's `model_dump`: base-class fields `event_id`,
`timestamp` first, then the subclass fields in declaration order. -/

/-- Rendering of an `Optional` field: `str(None)` is the four-letter string
`None`; a present value renders as itself. -/
def pyStrOpt : Option String → String
  | none => "None"
  | some s => s

/-- Rendering of a Python `bool` under `str`. -/
def pyStrBool : Bool → String
  | true => "True"
  | false => "False"

/-- Rendering of a `list[UUID]` value under `str`. -/
def pyUuidListStr (l : List String) : String :=
  "[" ++ String.intercalate ", " (l.map (fun u => "UUID(" ++ u ++ ")")) ++ "]"

structure TaskCreatedEvent where
  event_id : String
  timestamp : String
  project_id : String
  task_id : String
  title : String
  assigned_to_user_id : Option String
  priority : String
  estimated_hours : Option String
  required_skills : List String
deriving Repr, DecidableEq

def TaskCreatedEvent.to_stream_data (e : TaskCreatedEvent) : Fields :=
  [("event_id", e.event_id), ("timestamp", e.timestamp),
   ("event_type", "task.created"),
   ("project_id", e.project_id), ("task_id", e.task_id), ("title", e.title),
   ("assigned_to_user_id", pyStrOpt e.assigned_to_user_id),
   ("priority", e.priority),
   ("estimated_hours", pyStrOpt e.estimated_hours),
   ("required_skills", pyUuidListStr e.required_skills)]

structure TaskStatusChangedEvent where
  event_id : String
  timestamp : String
  project_id : String
  task_id : String
  previous_status : String
  new_status : String
  changed_by_user_id : String
  completion_percentage : String
deriving Repr, DecidableEq

def TaskStatusChangedEvent.to_stream_data (e : TaskStatusChangedEvent) : Fields :=
  [("event_id", e.event_id), ("timestamp", e.timestamp),
   ("event_type", "task.status_changed"),
   ("project_id", e.project_id), ("task_id", e.task_id),
   ("previous_status", e.previous_status), ("new_status", e.new_status),
   ("changed_by_user_id", e.changed_by_user_id),
   ("completion_percentage", e.completion_percentage)]

structure TaskCompletedEvent where
  event_id : String
  timestamp : String
  project_id : String
  task_id : String
  completed_by_user_id : String
  actual_hours : String
deriving Repr, DecidableEq

def TaskCompletedEvent.to_stream_data (e : TaskCompletedEvent) : Fields :=
  [("event_id", e.event_id), ("timestamp", e.timestamp),
   ("event_type", "task.completed"),
   ("project_id", e.project_id), ("task_id", e.task_id),
   ("completed_by_user_id", e.completed_by_user_id),
   ("actual_hours", e.actual_hours)]

structure ProjectMilestoneEvent where
  event_id : String
  timestamp : String
  project_id : String
  milestone_id : String
  milestone_name : String
  status : String
  achievement_date : Option String
deriving Repr, DecidableEq

def ProjectMilestoneEvent.to_stream_data (e : ProjectMilestoneEvent) : Fields :=
  [("event_id", e.event_id), ("timestamp", e.timestamp),
   ("event_type", "project.milestone"),
   ("project_id", e.project_id), ("milestone_id", e.milestone_id),
   ("milestone_name", e.milestone_name), ("status", e.status),
   ("achievement_date", pyStrOpt e.achievement_date)]

structure AIAnalysisRequestedEvent where
  event_id : String
  timestamp : String
  request_id : String
  analysis_type : String
  project_id : String
  requested_by_user_id : String
  priority : String
deriving Repr, DecidableEq

def AIAnalysisRequestedEvent.to_stream_data (e : AIAnalysisRequestedEvent) : Fields :=
  [("event_id", e.event_id), ("timestamp", e.timestamp),
   ("event_type", "ai.analysis_requested"),
   ("request_id", e.request_id), ("analysis_type", e.analysis_type),
   ("project_id", e.project_id),
   ("requested_by_user_id", e.requested_by_user_id),
   ("priority", e.priority)]

structure InsightGeneratedEvent where
  event_id : String
  timestamp : String
  insight_id : String
  project_id : String
  insight_type : String
  severity : Option String
  requires_attention : Bool
deriving Repr, DecidableEq

def InsightGeneratedEvent.to_stream_data (e : InsightGeneratedEvent) : Fields :=
  [("event_id", e.event_id), ("timestamp", e.timestamp),
   ("event_type", "insight.generated"),
   ("insight_id", e.insight_id), ("project_id", e.project_id),
   ("insight_type", e.insight_type),
   ("severity", pyStrOpt e.severity),
   ("requires_attention", pyStrBool e.requires_attention)]

structure TimesheetSubmittedEvent where
  event_id : String
  timestamp : String
  user_id : String
  week_start_date : String
  total_hours : String
  billable_hours : String
deriving Repr, DecidableEq

def TimesheetSubmittedEvent.to_stream_data (e : TimesheetSubmittedEvent) : Fields :=
  [("event_id", e.event_id), ("timestamp", e.timestamp),
   ("event_type", "timesheet.submitted"),
   ("user_id", e.user_id), ("week_start_date", e.week_start_date),
   ("total_hours", e.total_hours), ("billable_hours", e.billable_hours)]

/-- The sum of all event variants defined in events.py. -/
inductive Event
  | taskCreated (e : TaskCreatedEvent)
  | taskStatusChanged (e : TaskStatusChangedEvent)
  | taskCompleted (e : TaskCompletedEvent)
  | projectMilestone (e : ProjectMilestoneEvent)
  | aiAnalysisRequested (e : AIAnalysisRequestedEvent)
  | insightGenerated (e : InsightGeneratedEvent)
  | timesheetSubmitted (e : TimesheetSubmittedEvent)
deriving Repr, DecidableEq

/-- The `event_type` discriminator of each variant, doubling as the name of
its target stream. -/
def Event.event_type : Event → String
  | Event.taskCreated _ => "task.created"
  | Event.taskStatusChanged _ => "task.status_changed"
  | Event.taskCompleted _ => "task.completed"
  | Event.projectMilestone _ => "project.milestone"
  | Event.aiAnalysisRequested _ => "ai.analysis_requested"
  | Event.insightGenerated _ => "insight.generated"
  | Event.timesheetSubmitted _ => "timesheet.submitted"

/-- `Event.to_stream_data`: the flat string-to-string wire mapping. -/
def Event.to_stream_data : Event → Fields
  | Event.taskCreated e => e.to_stream_data
  | Event.taskStatusChanged e => e.to_stream_data
  | Event.taskCompleted e => e.to_stream_data
  | Event.projectMilestone e => e.to_stream_data
  | Event.aiAnalysisRequested e => e.to_stream_data
  | Event.insightGenerated e => e.to_stream_data
  | Event.timesheetSubmitted e => e.to_stream_data

/-! ## EventPublisher (publisher.py) -/

namespace EventPublisher

/-- `EventPublisher.publish(event)`: derives the stream name from
`event.event_type`, flattens the event with `to_stream_data`, and appends via
the stream client; the store-assigned message id is returned unchanged (the
`logger.info` of the id is observability only and not part of the state). -/
def publish (ev : Event) (st : RedisState) : Except RedisErr Nat × RedisState :=
  RedisStreamClient.publish ev.event_type ev.to_stream_data st

/-- `EventPublisher.publish_many(events)`: publishes each event in order,
collecting the ids; an exception partway through propagates, leaving the
already-published prefix in the store. -/
def publish_many : List Event → RedisState → Except RedisErr (List Nat) × RedisState
  | [], st => (Except.ok [], st)
  | ev :: rest, st =>
    match publish ev st with
    | (Except.ok mid, st₂) =>
      match publish_many rest st₂ with
      | (Except.ok mids, st₃) => (Except.ok (mid :: mids), st₃)
      | (Except.error e, st₃) => (Except.error e, st₃)
    | (Except.error e, st₂) => (Except.error e, st₂)

end EventPublisher

/-! ## EventSubscriber (subscriber.py)

Handlers are the per-stream callbacks registered with `on`; the model records
only what the consume loop observes of a handler: whether the `await` of it
returned normally or raised an `Exception`.  (A `BaseException` such as a
`KeyboardInterrupt` escaping a handler is outside the modelled environment;
cancellation is modelled where the loop awaits the store, via `Tick.cancel`.)
-/

/-- Observable outcome of awaiting one handler invocation. -/
inductive HandlerOutcome
  | ok
  | exn (msg : String)
deriving Repr, DecidableEq

/-- A registered handler: receives the message id and the field map. -/
abbrev Handler := Nat → Fields → HandlerOutcome

/-- The subscriber object: group and consumer identity, the handler dict in
registration order, and the `_running` flag. -/
structure EventSubscriber where
  group : String
  consumer : String
  handlers : List (String × Handler)
  running : Bool

/-- `EventSubscriber.on(stream)` applied to a handler: inserts into the
handler dict, silently replacing any prior registration for the stream. -/
def EventSubscriber.on (sub : EventSubscriber) (stream : String) (h : Handler) :
    EventSubscriber :=
  { sub with handlers := aupsert stream h sub.handlers }

/-- `EventSubscriber.stop()`: clears the `_running` flag. -/
def EventSubscriber.stop (sub : EventSubscriber) : EventSubscriber :=
  { sub with running := false }

/-- Log lines emitted by the consume loop: the per-message
`logger.error(f"Error handling ...")` carrying the stream name and message
id, and the outer `logger.error(f"Subscriber error...")`. -/
inductive LogMsg
  | handlerError (stream : String) (mid : Nat)
  | subscriberError
deriving Repr, DecidableEq

/-- Result of a slice of the consume loop's body: whether an
`asyncio.CancelledError` is propagating, the store state, and the log lines
emitted. -/
structure StepRes where
  cancelled : Bool
  st : RedisState
  logs : List LogMsg
deriving Repr, DecidableEq

/-- The per-message try block: await the handler and, only when it returned
normally, ack; any `Exception` from either await is caught and logged with
the stream name and message id; a `CancelledError` from the ack await is not
an `Exception` and propagates. -/
def processMessage (group stream : String) (h : Handler) (mid : Nat) (data : Fields)
    (st : RedisState) : StepRes :=
  match h mid data with
  | HandlerOutcome.exn _ => ⟨false, st, [LogMsg.handlerError stream mid]⟩
  | HandlerOutcome.ok =>
    match RedisStreamClient.ack stream group [mid] st with
    | (Except.ok _, st₂) => ⟨false, st₂, []⟩
    | (Except.error RedisErr.cancelled, st₂) => ⟨true, st₂, []⟩
    | (Except.error _, st₂) => ⟨false, st₂, [LogMsg.handlerError stream mid]⟩

/-- The inner `for message_id, data in stream_messages` loop. -/
def processEntries (group stream : String) (h : Handler) :
    List (Nat × Fields) → RedisState → StepRes
  | [], st => ⟨false, st, []⟩
  | (mid, data) :: rest, st =>
    let r := processMessage group stream h mid data st
    if r.cancelled then r
    else
      let r₂ := processEntries group stream h rest r.st
      ⟨r₂.cancelled, r₂.st, r.logs ++ r₂.logs⟩

/-- The outer `for stream_name, stream_messages in messages` loop; a stream
with no registered handler is skipped. -/
def processBatch (sub : EventSubscriber) :
    List (String × List (Nat × Fields)) → RedisState → StepRes
  | [], st => ⟨false, st, []⟩
  | (s, msgs) :: rest, st =>
    match alookup s sub.handlers with
    | none => processBatch sub rest st
    | some h =>
      let r := processEntries sub.group s h msgs st
      if r.cancelled then r
      else
        let r₂ := processBatch sub rest r.st
        ⟨r₂.cancelled, r₂.st, r.logs ++ r₂.logs⟩

/-- The `read_group` call issued at the top of each loop iteration: all
registered streams at cursor `">"`, `count=10`, `block=5000`. -/
def readCall (sub : EventSubscriber) (st : RedisState) :
    Except RedisErr (List (String × List (Nat × Fields))) × RedisState :=
  RedisStreamClient.read_group sub.group sub.consumer
    (sub.handlers.map (fun p => (p.1, ">"))) 10 (some 5000) st

/-- Outcome of one iteration of the `while self._running` loop. -/
inductive IterOutcome
  | cont
  | sleepRetry (secs : Nat)
  | stop
deriving Repr, DecidableEq

/-- One iteration of the consume loop: read, dispatch, ack.  A
`CancelledError` breaks out of the loop; any other exception reaching the
outer try is logged and followed by `asyncio.sleep(1)` before retrying. -/
def loopIter (sub : EventSubscriber) (st : RedisState) :
    IterOutcome × RedisState × List LogMsg :=
  match readCall sub st with
  | (Except.ok batch, st₂) =>
    let r := processBatch sub batch st₂
    ((if r.cancelled then IterOutcome.stop else IterOutcome.cont), r.st, r.logs)
  | (Except.error RedisErr.cancelled, st₂) => (IterOutcome.stop, st₂, [])
  | (Except.error _, st₂) => (IterOutcome.sleepRetry 1, st₂, [LogMsg.subscriberError])

/-- The group-creation pass at the top of `start()`: one
`create_consumer_group(stream, group, start_id="$")` per registered stream,
in registration order; the boolean result is discarded; an exception
propagates out of `start()`. -/
def createGroups (group : String) : List String → RedisState →
    Except RedisErr Unit × RedisState
  | [], st => (Except.ok (), st)
  | s :: rest, st =>
    match RedisStreamClient.create_consumer_group s group "$" st with
    | (Except.ok _, st₂) => createGroups group rest st₂
    | (Except.error e, st₂) => (Except.error e, st₂)

/-- Errors that `start()` can raise before entering the consume loop: the
`ValueError` for an empty handler dict, or a store error from group
creation. -/
inductive StartErr
  | valueError (msg : String)
  | redisError (e : RedisErr)
deriving Repr, DecidableEq

/-- The initialisation phase of `EventSubscriber.start()`, everything before
the `while` loop: fail fast with `ValueError` when no handler is registered,
then create every consumer group from `"$"`, then set `_running = True`. -/
def EventSubscriber.startInit (sub : EventSubscriber) (st : RedisState) :
    Except StartErr EventSubscriber × RedisState :=
  if sub.handlers.isEmpty then
    (Except.error (StartErr.valueError "No event handlers registered"), st)
  else
    match createGroups sub.group (sub.handlers.map Prod.fst) st with
    | (Except.error e, st₂) => (Except.error (StartErr.redisError e), st₂)
    | (Except.ok _, st₂) => (Except.ok { sub with running := true }, st₂)

/-- The `while self._running` loop, driven by an explicit fuel bound on the
number of iterations observed (the real loop is unbounded). -/
def runLoop : Nat → EventSubscriber → RedisState → RedisState × List LogMsg
  | 0, _, st => (st, [])
  | fuel + 1, sub, st =>
    if sub.running then
      match loopIter sub st with
      | (IterOutcome.stop, st₂, logs) => (st₂, logs)
      | (_, st₂, logs) =>
        let (st₃, logs₂) := runLoop fuel sub st₂
        (st₃, logs ++ logs₂)
    else (st, [])

/-- `EventSubscriber.start()` observed for `fuel` loop iterations:
initialisation, then the consume loop.  The only exceptions that escape are
those raised before the loop is entered. -/
def EventSubscriber.start (sub : EventSubscriber) (fuel : Nat) (st : RedisState) :
    Except StartErr Unit × RedisState × List LogMsg :=
  match sub.startInit st with
  | (Except.error e, st₂) => (Except.error e, st₂, [])
  | (Except.ok sub₂, st₂) =>
    let (st₃, logs) := runLoop fuel sub₂ st₂
    (Except.ok (), st₃, logs)

/-! ## Generic observations and a post-start operation machine -/

/-- The trace suffix appended on the way from `st` to `st₂`. -/
def traceDelta (st st₂ : RedisState) : List RedisCall :=
  st₂.trace.drop st.trace.length

/-- The environment event the next network round trip will see. -/
def nextTick (st : RedisState) : Tick :=
  st.failSchedule.head?.getD Tick.ok

/-- The state after one network round trip consumed its tick. -/
def tickState (st : RedisState) : RedisState :=
  { st with failSchedule := st.failSchedule.tail }

/-- The pending set of `(stream, group)` as a list (empty when the group does
not exist). -/
def pendingOf (st : RedisState) (s g : String) : List (Nat × String) :=
  ((st.groupOf s g).map GroupState.pending).getD []

/-- The environment never cancels the consuming task (it may still inject
connection failures). -/
def noCancel (st : RedisState) : Prop := Tick.cancel ∉ st.failSchedule

/-- The single-message acknowledgement calls for group `g` contained in a
trace, in order. -/
def ackCallsOf (g : String) : List RedisCall → List (String × Nat)
  | [] => []
  | RedisCall.xack s g₂ [mid] _ :: rest =>
    if g₂ = g then (s, mid) :: ackCallsOf g rest else ackCallsOf g rest
  | _ :: rest => ackCallsOf g rest

/-- The (stream, message id) pairs of a batch whose registered handler
returns without raising — exactly the messages the consume loop must
acknowledge. -/
def successAcks (handlers : List (String × Handler)) :
    List (String × List (Nat × Fields)) → List (String × Nat)
  | [] => []
  | (s, msgs) :: rest =>
    match alookup s handlers with
    | none => successAcks handlers rest
    | some h =>
      (msgs.filter (fun m => decide (h m.1 m.2 = HandlerOutcome.ok))).map
        (fun m => (s, m.1))
        ++ successAcks handlers rest

/-- Stream well-formedness: no entry id exceeds the stream's last assigned
id (true of every reachable store, since ids are assigned increasingly). -/
def StreamWF (st : RedisState) (s : String) : Prop :=
  ∀ e ∈ (st.streamOf s).entries, e.id ≤ (st.streamOf s).lastId

/-- Safety bound for a consumer group: its cursor never lies below `n` and
every pending message id exceeds `n`. -/
def GroupSafe (st : RedisState) (s g : String) (n : Nat) : Prop :=
  ∀ gs, st.groupOf s g = some gs →
    n ≤ gs.lastDelivered ∧ ∀ p ∈ gs.pending, n < p.1

/-- The environment never injects a connection failure or a cancellation. -/
def allOk (st : RedisState) : Prop := ∀ t ∈ st.failSchedule, t = Tick.ok

instance (st : RedisState) : Decidable (allOk st) := by
  unfold allOk; infer_instance

/-- One delivery observed at the store interface: a message handed to some
consumer of `group` on `stream`. -/
structure Delivery where
  group : String
  stream : String
  mid : Nat
deriving Repr, DecidableEq

/-- The store-level operations any client of the log may perform after a
subscriber has started: appends by producers, consumer-group reads by any
group, and acknowledgements.  (Nothing in the repository deletes streams or
consumer groups.) -/
inductive SysOp
  | appendOp (stream : String) (fields : Fields)
  | readOp (group consumer : String) (streams : List (String × String)) (count : Nat)
  | ackOp (stream group : String) (mid : Nat)

/-- Deliveries contained in one `xreadgroup` reply. -/
def deliveriesOf (group : String) (batch : List (String × List (Nat × Fields))) :
    List Delivery :=
  batch.flatMap (fun p => p.2.map (fun m => ⟨group, p.1, m.1⟩))

/-- Run one store-level operation, collecting the deliveries it makes. -/
def runOp : SysOp → RedisState → RedisState × List Delivery
  | SysOp.appendOp s f, st => ((Redis.xadd s f DEFAULT_MAXLEN st).2, [])
  | SysOp.readOp g c strs cnt, st =>
    match Redis.xreadgroup g c strs cnt st with
    | (Except.ok batch, st₂) => (st₂, deliveriesOf g batch)
    | (Except.error _, st₂) => (st₂, [])
  | SysOp.ackOp s g mid, st => ((Redis.xack s g [mid] st).2, [])

/-- Run a sequence of store-level operations, collecting all deliveries. -/
def runOps : List SysOp → RedisState → RedisState × List Delivery
  | [], st => (st, [])
  | op :: rest, st =>
    let (st₂, ds) := runOp op st
    let (st₃, ds₂) := runOps rest st₂
    (st₃, ds ++ ds₂)

/-! ## Concrete witness inputs -/

/-- The pristine store: no streams, no groups, a healthy environment. -/
def st0 : RedisState := ⟨[], [], [], []⟩

/-- A sample concrete event. -/
def wEv1 : Event := Event.taskCompleted ⟨"e1", "t0", "p1", "t1", "u1", "3.5"⟩

/-- A second sample concrete event. -/
def wEv2 : Event := Event.taskCreated
  ⟨"e2", "t1", "p1", "t2", "fix", none, "high", some "2.0", ["s1", "s2"]⟩

/-- A handler that always returns normally. -/
def okHandler : Handler := fun _ _ => HandlerOutcome.ok

/-- A handler that always raises. -/
def badHandler : Handler := fun _ _ => HandlerOutcome.exn "boom"

/-- A subscriber with no registered handlers. -/
def wSub6 : EventSubscriber := ⟨"g1", "c1", [], false⟩

/-- A pristine store whose next network round trip fails with a connection
error. -/
def stFail : RedisState := ⟨[], [], [Tick.connFail], []⟩

/-- A pristine store whose second network round trip fails with a connection
error. -/
def stFail2 : RedisState := ⟨[], [], [Tick.ok, Tick.connFail], []⟩

deriving instance DecidableEq for Except

instance batchDecEq : DecidableEq (List (String × List (Nat × Fields))) :=
  List.hasDecEq

/-- Decidable equality for `Except` built from decision procedures for the
two components (spelled out so deeply nested instances resolve). -/
def exceptDecEqOf {ε α : Type} (dε : DecidableEq ε) (dα : DecidableEq α) :
    DecidableEq (Except ε α) := fun a b =>
  match a, b with
  | Except.ok x, Except.ok y =>
    match dα x y with
    | isTrue h => isTrue (h ▸ rfl)
    | isFalse h => isFalse (fun hh => h (Except.ok.inj hh))
  | Except.error x, Except.error y =>
    match dε x y with
    | isTrue h => isTrue (h ▸ rfl)
    | isFalse h => isFalse (fun hh => h (Except.error.inj hh))
  | Except.ok _, Except.error _ => isFalse (fun hh => Except.noConfusion hh)
  | Except.error _, Except.ok _ => isFalse (fun hh => Except.noConfusion hh)

instance batchResDecEq :
    DecidableEq (Except RedisErr (List (String × List (Nat × Fields)))) :=
  exceptDecEqOf inferInstance batchDecEq

/-- The store after successfully publishing the two sample events. -/
def wSt5 : RedisState := (EventPublisher.publish_many [wEv1, wEv2] st0).2

/-- The store after a two-event publish whose second append fails. -/
def wSt5F : RedisState := (EventPublisher.publish_many [wEv1, wEv2] stFail2).2

/-- A store with one stream, a group holding two pending messages, and a
schedule whose next round trip fails with a connection error. -/
def wStP : RedisState :=
  ⟨[("task.completed", ⟨[⟨1, []⟩, ⟨2, []⟩], 2⟩)],
   [(("task.completed", "g"), ⟨2, [(1, "c1"), (2, "c1")]⟩)],
   [Tick.connFail, Tick.ok], []⟩

/-- A running subscriber for one stream whose handler always raises. -/
def wSub7 : EventSubscriber := ⟨"g7", "c1", [("task.completed", badHandler)], true⟩

/-- A store whose next read fails with a connection error. -/
def wSt7 : RedisState :=
  ⟨[("task.completed", ⟨[], 0⟩)], [(("task.completed", "g7"), ⟨0, []⟩)],
   [Tick.connFail], []⟩

/-- The store after the failed read of `wSt7`. -/
def wSt7b : RedisState := (readCall wSub7 wSt7).2

/-- A healthy store with one undelivered message for `wSub7`. -/
def wSt7c : RedisState :=
  ⟨[("task.completed", ⟨[⟨1, []⟩], 1⟩)], [(("task.completed", "g7"), ⟨0, []⟩)],
   [], []⟩

/-- The store after the successful read of `wSt7c`. -/
def wSt7d : RedisState := (readCall wSub7 wSt7c).2

/-- The store after a failed append on `stFail`. -/
def wSt7e : RedisState :=
  (Redis.xadd wEv1.event_type wEv1.to_stream_data DEFAULT_MAXLEN stFail).2

/-- A handler that succeeds on message id 1 and raises on any other id. -/
def mixedHandler : Handler := fun mid _ =>
  if mid = 1 then HandlerOutcome.ok else HandlerOutcome.exn "boom"

/-- A subscriber for the acknowledge-iff-success scenario. -/
def wSubC1 : EventSubscriber := ⟨"gA", "cA", [("task.created", mixedHandler)], true⟩

/-- A healthy store holding two undelivered messages for `wSubC1`. -/
def wStC1 : RedisState :=
  ⟨[("task.created", ⟨[⟨1, []⟩, ⟨2, []⟩], 2⟩)],
   [(("task.created", "gA"), ⟨0, []⟩)], [], []⟩

/-- The batch the read call of `wSubC1` returns on `wStC1`. -/
def wBatchC1 : List (String × List (Nat × Fields)) :=
  [("task.created", [(1, []), (2, [])])]

/-- The store after the successful read of `wStC1`. -/
def wStC1r : RedisState := (readCall wSubC1 wStC1).2

/-- A not-yet-started subscriber for one stream with an always-succeeding
handler. -/
def wSub4 : EventSubscriber := ⟨"g4", "c1", [("task.created", okHandler)], false⟩

/-- `wSub4` as `start()` leaves it after setting the running flag. -/
def wSub4R : EventSubscriber := { wSub4 with running := true }

/-- A healthy store whose `task.created` stream already holds two messages
(ids 1 and 2) and which has no consumer groups yet. -/
def wSt4 : RedisState :=
  ⟨[("task.created", ⟨[⟨1, []⟩, ⟨2, []⟩], 2⟩)], [], [], []⟩

/-- A post-start scenario: a producer appends one more message and the
subscriber's group then reads new messages. -/
def wOps4 : List SysOp :=
  [SysOp.appendOp "task.created" [("k", "v")],
   SysOp.readOp "g4" "c1" [("task.created", ">")] 10]

/-! ## Theorems -/

theorem tick_eq (st : RedisState) : st.tick = (nextTick st, tickState st) := by
  rcases st with ⟨a, b, c, d⟩
  rcases c with _ | ⟨t, rest⟩
  · rfl
  · rfl

theorem alookup_aupsert_self {κ α : Type} [DecidableEq κ] (k : κ) (v : α)
    (l : List (κ × α)) : alookup k (aupsert k v l) = some v := by
  induction l with
  | nil => simp [alookup, aupsert]
  | cons p rest ih =>
    rcases p with ⟨k₂, v₂⟩
    by_cases h : k = k₂
    · subst h; simp [aupsert, alookup]
    · simp [aupsert, h, alookup, ih]

theorem alookup_aupsert_ne {κ α : Type} [DecidableEq κ] (k k₂ : κ) (v : α)
    (l : List (κ × α)) (hne : k ≠ k₂) :
    alookup k (aupsert k₂ v l) = alookup k l := by
  induction l with
  | nil => simp [alookup, aupsert, hne]
  | cons p rest ih =>
    rcases p with ⟨k₃, v₃⟩
    by_cases h : k₂ = k₃
    · subst h; simp [aupsert, alookup, hne]
    · simp [aupsert, h, alookup, ih]

theorem tick_fst (st : RedisState) (h : allOk st) : st.tick.1 = Tick.ok := by
  unfold RedisState.tick
  match hs : st.failSchedule with
  | [] => rfl
  | t :: rest => exact h t (by rw [hs]; exact List.mem_cons_self t rest)

theorem tick_snd_streams (st : RedisState) : st.tick.2.streams = st.streams := by
  unfold RedisState.tick
  match hs : st.failSchedule with
  | [] => rfl
  | t :: rest => rfl

theorem tick_snd_groups (st : RedisState) : st.tick.2.groups = st.groups := by
  unfold RedisState.tick
  match hs : st.failSchedule with
  | [] => rfl
  | t :: rest => rfl

theorem tick_snd_trace (st : RedisState) : st.tick.2.trace = st.trace := by
  unfold RedisState.tick
  match hs : st.failSchedule with
  | [] => rfl
  | t :: rest => rfl

theorem tick_snd_allOk (st : RedisState) (h : allOk st) : allOk st.tick.2 := by
  unfold RedisState.tick
  match hs : st.failSchedule with
  | [] => exact h
  | t :: rest =>
    intro u hu
    exact h u (by rw [hs]; exact List.mem_cons_of_mem t hu)

theorem allOk_tail (st : RedisState) (h : allOk st) :
    allOk { st with failSchedule := st.failSchedule.tail } := by
  intro t ht
  exact h t (List.mem_of_mem_tail ht)

theorem allOk_nextTick (st : RedisState) (h : allOk st) : nextTick st = Tick.ok := by
  unfold nextTick
  rcases hs : st.failSchedule with _ | ⟨t, rest⟩
  · rfl
  · simpa using h t (by rw [hs]; exact List.mem_cons_self t rest)

theorem create_consumer_group_fresh (stream group startId : String) (st : RedisState)
    (hok : nextTick st = Tick.ok) (hfresh : st.groupOf stream group = none) :
    RedisStreamClient.create_consumer_group stream group startId st =
      (Except.ok true,
       ⟨(if (alookup stream st.streams).isSome then st.streams
         else aupsert stream emptyStream st.streams),
        aupsert (stream, group) ⟨interpStartId startId (st.streamOf stream), []⟩ st.groups,
        st.failSchedule.tail,
        st.trace ++ [RedisCall.xgroupCreate stream group startId true]⟩) := by
  simp only [RedisState.groupOf] at hfresh
  unfold RedisStreamClient.create_consumer_group Redis.xgroupCreate
  rcases hs : st.failSchedule with _ | ⟨t, rest⟩
  · simp [RedisState.tick, hs, RedisState.groupOf, hfresh, RedisState.logCall,
      RedisState.streamOf]
  · have ht : t = Tick.ok := by simpa [nextTick, hs] using hok
    subst ht
    simp [RedisState.tick, hs, RedisState.groupOf, hfresh, RedisState.logCall,
      RedisState.streamOf]

theorem create_consumer_group_busy (stream group startId : String) (st : RedisState)
    (hok : nextTick st = Tick.ok) (gs : GroupState) (hbusy : st.groupOf stream group = some gs) :
    RedisStreamClient.create_consumer_group stream group startId st =
      (Except.ok false,
       ⟨st.streams, st.groups, st.failSchedule.tail,
        st.trace ++ [RedisCall.xgroupCreate stream group startId false]⟩) := by
  have hsub : strContainsSub "BUSYGROUP Consumer Group name already exists" "BUSYGROUP" = true := by
    decide
  simp only [RedisState.groupOf] at hbusy
  unfold RedisStreamClient.create_consumer_group Redis.xgroupCreate
  rcases hs : st.failSchedule with _ | ⟨t, rest⟩
  · simp [RedisState.tick, hs, RedisState.groupOf, hbusy, RedisState.logCall, hsub]
  · have ht : t = Tick.ok := by simpa [nextTick, hs] using hok
    subst ht
    simp [RedisState.tick, hs, RedisState.groupOf, hbusy, RedisState.logCall, hsub]

/-- C3: `create_consumer_group` is idempotent — the first call on a fresh
(stream, group) pair returns `true`, an identical second call returns `false`
rather than raising, leaves the group's cursor and pending state (and every
stream) untouched, and in general a BUSYGROUP response from the store is
always converted to the boolean `false` and never surfaces as an exception. -/
theorem create_consumer_group_idempotent (stream group startId : String) (st : RedisState)
    (hok : allOk st) (hfresh : st.groupOf stream group = none) :
    ∃ st₁ st₂,
      RedisStreamClient.create_consumer_group stream group startId st = (Except.ok true, st₁) ∧
      RedisStreamClient.create_consumer_group stream group startId st₁ = (Except.ok false, st₂) ∧
      st₂.groups = st₁.groups ∧ st₂.streams = st₁.streams ∧
      (∀ st₃ : RedisState, ∀ gs : GroupState, st₃.groupOf stream group = some gs → allOk st₃ →
        ∃ st₄, RedisStreamClient.create_consumer_group stream group startId st₃ =
            (Except.ok false, st₄) ∧
          st₄.groupOf stream group = some gs ∧ st₄.streams = st₃.streams) := by
  have h1 := create_consumer_group_fresh stream group startId st (allOk_nextTick st hok) hfresh
  set st₁ : RedisState :=
    ⟨(if (alookup stream st.streams).isSome then st.streams
      else aupsert stream emptyStream st.streams),
     aupsert (stream, group) ⟨interpStartId startId (st.streamOf stream), []⟩ st.groups,
     st.failSchedule.tail,
     st.trace ++ [RedisCall.xgroupCreate stream group startId true]⟩ with hst₁
  have hok₁ : allOk st₁ := by
    intro t ht
    exact hok t (List.mem_of_mem_tail ht)
  have hbusy : st₁.groupOf stream group =
      some ⟨interpStartId startId (st.streamOf stream), []⟩ := by
    simp [hst₁, RedisState.groupOf, alookup_aupsert_self]
  have h2 := create_consumer_group_busy stream group startId st₁ (allOk_nextTick st₁ hok₁) _ hbusy
  refine ⟨st₁, _, h1, h2, rfl, rfl, ?_⟩
  intro st₃ gs h3 hok₃
  have h4 := create_consumer_group_busy stream group startId st₃ (allOk_nextTick st₃ hok₃) gs h3
  refine ⟨_, h4, ?_, rfl⟩
  simpa [RedisState.groupOf] using h3

/-- C6: starting a subscriber with zero registered handlers raises the
`ValueError` configuration error, and it fails fast — the store state is
returned untouched (no consumer group was created, no command was issued)
and no running subscriber is produced. -/
theorem start_empty_handlers_fails (sub : EventSubscriber) (st : RedisState) (fuel : Nat)
    (h : sub.handlers = []) :
    sub.startInit st = (Except.error (StartErr.valueError "No event handlers registered"), st) ∧
    sub.start fuel st =
      (Except.error (StartErr.valueError "No event handlers registered"), st, []) := by
  have h2 : sub.handlers.isEmpty = true := by simp [h]
  refine ⟨?_, ?_⟩
  · simp [EventSubscriber.startInit, h2]
  · simp [EventSubscriber.start, EventSubscriber.startInit, h2]

theorem create_consumer_group_idempotent_witness :
    allOk st0 ∧ st0.groupOf "task.created" "g1" = none ∧
    (∃ st₁ st₂,
      RedisStreamClient.create_consumer_group "task.created" "g1" "$" st0 =
        (Except.ok true, st₁) ∧
      RedisStreamClient.create_consumer_group "task.created" "g1" "$" st₁ =
        (Except.ok false, st₂) ∧
      st₂.groups = st₁.groups ∧ st₂.streams = st₁.streams ∧
      (∀ st₃ : RedisState, ∀ gs : GroupState, st₃.groupOf "task.created" "g1" = some gs →
        allOk st₃ →
        ∃ st₄, RedisStreamClient.create_consumer_group "task.created" "g1" "$" st₃ =
            (Except.ok false, st₄) ∧
          st₄.groupOf "task.created" "g1" = some gs ∧ st₄.streams = st₃.streams)) :=
  ⟨by decide, by decide,
   create_consumer_group_idempotent "task.created" "g1" "$" st0 (by decide) (by decide)⟩

theorem streamOf_mk_aupsert_self (streams : List (String × StreamState))
    (s : String) (ss : StreamState) (gr : List ((String × String) × GroupState))
    (fs : List Tick) (tr : List RedisCall) :
    RedisState.streamOf ⟨aupsert s ss streams, gr, fs, tr⟩ s = ss := by
  simp [RedisState.streamOf, alookup_aupsert_self]

theorem streamOf_mk_aupsert_ne (streams : List (String × StreamState))
    (s s₂ : String) (ss : StreamState) (gr : List ((String × String) × GroupState))
    (fs : List Tick) (tr : List RedisCall) (hne : s₂ ≠ s) :
    RedisState.streamOf ⟨aupsert s ss streams, gr, fs, tr⟩ s₂ =
      RedisState.streamOf ⟨streams, gr, fs, tr⟩ s₂ := by
  simp only [RedisState.streamOf]
  rw [alookup_aupsert_ne s₂ s _ _ hne]

theorem xadd_ok (stream : String) (data : Fields) (maxlen : Nat) (st : RedisState)
    (h : nextTick st = Tick.ok) :
    Redis.xadd stream data maxlen st =
      (Except.ok ((st.streamOf stream).lastId + 1),
       ⟨aupsert stream
          (StreamState.mk
            (((st.streamOf stream).entries ++
               [StreamEntry.mk ((st.streamOf stream).lastId + 1) data]).drop
             ((st.streamOf stream).entries.length + 1 - maxlen))
            ((st.streamOf stream).lastId + 1)) st.streams,
        st.groups, st.failSchedule.tail,
        st.trace ++ [RedisCall.xadd stream data (some ((st.streamOf stream).lastId + 1))]⟩) := by
  unfold Redis.xadd
  rcases hs : st.failSchedule with _ | ⟨t, rest⟩
  · simp [RedisState.tick, hs, RedisState.logCall]
  · have ht : t = Tick.ok := by simpa [nextTick, hs] using h
    subst ht
    simp [RedisState.tick, hs, RedisState.logCall, RedisState.streamOf]

theorem xadd_fail (stream : String) (data : Fields) (maxlen : Nat) (st : RedisState)
    (t : Tick) (h : nextTick st = t) (hne : t ≠ Tick.ok) :
    Redis.xadd stream data maxlen st =
      (Except.error t.err,
       ⟨st.streams, st.groups, st.failSchedule.tail,
        st.trace ++ [RedisCall.xadd stream data none]⟩) := by
  unfold Redis.xadd
  rcases hs : st.failSchedule with _ | ⟨u, rest⟩
  · exact absurd (by simpa [nextTick, hs] using h.symm) hne
  · have hu : u = t := by simpa [nextTick, hs] using h
    subst hu
    rcases u with _ | _ | _
    · exact absurd rfl hne
    · simp [RedisState.tick, hs, RedisState.logCall, Tick.err]
    · simp [RedisState.tick, hs, RedisState.logCall, Tick.err]

/-- C8: `EventPublisher.publish(event)` appends exactly `event.to_stream_data()`
to the stream named `event.event_type` via the log client's append, returning
the store-assigned message id unchanged; a failed append propagates to the
caller as-is, with exactly one append attempted (no retry) and the store left
untouched.  (The length bound only keeps the default `maxlen=10000` trim out
of the picture.) -/
theorem publish_appends_event (ev : Event) (st : RedisState)
    (hlen : (st.streamOf ev.event_type).entries.length < DEFAULT_MAXLEN) :
    (nextTick st = Tick.ok →
      ∃ mid st₂, EventPublisher.publish ev st = (Except.ok mid, st₂) ∧
        mid = (st.streamOf ev.event_type).lastId + 1 ∧
        (st₂.streamOf ev.event_type).entries =
          (st.streamOf ev.event_type).entries ++ [⟨mid, ev.to_stream_data⟩] ∧
        (∀ s, s ≠ ev.event_type → st₂.streamOf s = st.streamOf s) ∧
        st₂.groups = st.groups ∧
        st₂.trace = st.trace ++ [RedisCall.xadd ev.event_type ev.to_stream_data (some mid)]) ∧
    (∀ t, nextTick st = t → t ≠ Tick.ok →
      EventPublisher.publish ev st =
        (Except.error t.err,
         ⟨st.streams, st.groups, st.failSchedule.tail,
          st.trace ++ [RedisCall.xadd ev.event_type ev.to_stream_data none]⟩)) := by
  constructor
  · intro hok
    have hx := xadd_ok ev.event_type ev.to_stream_data DEFAULT_MAXLEN st hok
    have hpub : EventPublisher.publish ev st =
        Redis.xadd ev.event_type ev.to_stream_data DEFAULT_MAXLEN st := rfl
    rw [hx] at hpub
    refine ⟨(st.streamOf ev.event_type).lastId + 1, _, hpub, rfl, ?_, ?_, rfl, rfl⟩
    · rw [streamOf_mk_aupsert_self]
      have hdrop : (st.streamOf ev.event_type).entries.length + 1 - DEFAULT_MAXLEN = 0 := by
        omega
      rw [hdrop]
      exact List.drop_zero _
    · intro s hne
      rw [streamOf_mk_aupsert_ne _ _ _ _ _ _ _ hne]
      rcases st with ⟨a, b, c, d⟩
      rfl
  · intro t ht hne
    have hx := xadd_fail ev.event_type ev.to_stream_data DEFAULT_MAXLEN st t ht hne
    have hpub : EventPublisher.publish ev st =
        Redis.xadd ev.event_type ev.to_stream_data DEFAULT_MAXLEN st := rfl
    rw [hx] at hpub
    exact hpub

theorem publish_appends_event_witness :
    ((st0.streamOf wEv1.event_type).entries.length < DEFAULT_MAXLEN ∧
     (stFail.streamOf wEv1.event_type).entries.length < DEFAULT_MAXLEN) ∧
    (∃ mid st₂, EventPublisher.publish wEv1 st0 = (Except.ok mid, st₂) ∧
        mid = (st0.streamOf wEv1.event_type).lastId + 1 ∧
        (st₂.streamOf wEv1.event_type).entries =
          (st0.streamOf wEv1.event_type).entries ++ [⟨mid, wEv1.to_stream_data⟩] ∧
        (∀ s, s ≠ wEv1.event_type → st₂.streamOf s = st0.streamOf s) ∧
        st₂.groups = st0.groups ∧
        st₂.trace = st0.trace ++
          [RedisCall.xadd wEv1.event_type wEv1.to_stream_data (some mid)]) ∧
    EventPublisher.publish wEv1 stFail =
      (Except.error Tick.connFail.err,
       ⟨stFail.streams, stFail.groups, stFail.failSchedule.tail,
        stFail.trace ++ [RedisCall.xadd wEv1.event_type wEv1.to_stream_data none]⟩) :=
  ⟨⟨by decide, by decide⟩,
   (publish_appends_event wEv1 st0 (by decide)).1 (by decide),
   (publish_appends_event wEv1 stFail (by decide)).2 Tick.connFail (by decide) (by decide)⟩

theorem publish_shape (ev : Event) (st : RedisState) :
    (∃ mid st₂, EventPublisher.publish ev st = (Except.ok mid, st₂) ∧
       st₂.trace = st.trace ++ [RedisCall.xadd ev.event_type ev.to_stream_data (some mid)]) ∨
    (∃ e st₂, EventPublisher.publish ev st = (Except.error e, st₂) ∧
       st₂.trace = st.trace ++ [RedisCall.xadd ev.event_type ev.to_stream_data none] ∧
       st₂.streams = st.streams ∧ st₂.groups = st.groups) := by
  rcases ht : nextTick st with _ | _ | _
  · left
    have hx := xadd_ok ev.event_type ev.to_stream_data DEFAULT_MAXLEN st ht
    exact ⟨_, _, hx, rfl⟩
  · right
    have hx := xadd_fail ev.event_type ev.to_stream_data DEFAULT_MAXLEN st Tick.connFail ht
      (by simp)
    exact ⟨_, _, hx, rfl, rfl, rfl⟩
  · right
    have hx := xadd_fail ev.event_type ev.to_stream_data DEFAULT_MAXLEN st Tick.cancel ht
      (by simp)
    exact ⟨_, _, hx, rfl, rfl, rfl⟩

/-- C5: `publish_many` publishes each event sequentially in caller-supplied
order, returning the assigned ids in the same order (witnessed by the exact
sequence of append calls); when the publish of the i-th event fails, the
first i events remain durably published (the final store equals the store
after publishing exactly the length-i prefix), nothing at index i or later
is published, and the failure propagates to the caller unchanged. -/
theorem publish_many_sequential (evs : List Event) (st : RedisState) :
    (∀ mids st₂, EventPublisher.publish_many evs st = (Except.ok mids, st₂) →
      mids.length = evs.length ∧
      st₂.trace = st.trace ++
        (evs.zip mids).map
          (fun p => RedisCall.xadd p.1.event_type p.1.to_stream_data (some p.2))) ∧
    (∀ err st₂, EventPublisher.publish_many evs st = (Except.error err, st₂) →
      ∃ i, ∃ hi : i < evs.length, ∃ mids stI,
        EventPublisher.publish_many (evs.take i) st = (Except.ok mids, stI) ∧
        EventPublisher.publish (evs.get ⟨i, hi⟩) stI = (Except.error err, st₂) ∧
        st₂.streams = stI.streams ∧ st₂.groups = stI.groups) := by
  induction evs generalizing st with
  | nil =>
    constructor
    · intro mids st₂ h
      simp only [EventPublisher.publish_many, Prod.mk.injEq, Except.ok.injEq] at h
      obtain ⟨h1, h2⟩ := h
      subst h1
      subst h2
      simp
    · intro err st₂ h
      simp [EventPublisher.publish_many] at h
  | cons ev rest ih =>
    rcases publish_shape ev st with ⟨mid, st', hok, htr⟩ | ⟨e, st', herr, htr2, hstr, hgr⟩
    · have key : ∀ l, EventPublisher.publish_many (ev :: l) st =
          (match EventPublisher.publish_many l st' with
           | (Except.ok mids₂, st₃) => (Except.ok (mid :: mids₂), st₃)
           | (Except.error e₂, st₃) => (Except.error e₂, st₃)) := by
        intro l
        conv_lhs => rw [EventPublisher.publish_many]
        rw [hok]
      constructor
      · intro mids st₂ h
        rw [key] at h
        rcases hm : EventPublisher.publish_many rest st' with ⟨res₂, st₃⟩
        rw [hm] at h
        cases res₂ with
        | ok mids₂ =>
          simp only [Prod.mk.injEq, Except.ok.injEq] at h
          obtain ⟨h1, h2⟩ := h
          subst h1
          subst h2
          obtain ⟨hlen, htr₂⟩ := (ih st').1 mids₂ st₃ hm
          refine ⟨by simp [hlen], ?_⟩
          rw [htr₂, htr]
          simp [List.zip_cons_cons]
        | error e₂ => simp at h
      · intro err st₂ h
        rw [key] at h
        rcases hm : EventPublisher.publish_many rest st' with ⟨res₂, st₃⟩
        rw [hm] at h
        cases res₂ with
        | ok mids₂ => simp at h
        | error e₂ =>
          simp only [Prod.mk.injEq, Except.error.injEq] at h
          obtain ⟨h1, h2⟩ := h
          subst h1
          subst h2
          obtain ⟨i, hi, mids, stI, h1, h2, h3, h4⟩ := (ih st').2 e₂ st₃ hm
          refine ⟨i + 1, Nat.succ_lt_succ hi, mid :: mids, stI, ?_, ?_, h3, h4⟩
          · rw [List.take_succ_cons, key, h1]
          · simpa using h2
    · constructor
      · intro mids st₂ h
        rw [EventPublisher.publish_many, herr] at h
        simp at h
      · intro err st₂ h
        rw [EventPublisher.publish_many, herr] at h
        simp only [Prod.mk.injEq, Except.error.injEq] at h
        obtain ⟨h1, h2⟩ := h
        subst h1
        subst h2
        refine ⟨0, Nat.succ_pos _, [], st, by simp [EventPublisher.publish_many], ?_, hstr, hgr⟩
        simpa using herr

theorem publish_many_sequential_witness :
    ([1, 1].length = [wEv1, wEv2].length ∧
     wSt5.trace = st0.trace ++
       (([wEv1, wEv2].zip [1, 1]).map
         (fun p => RedisCall.xadd p.1.event_type p.1.to_stream_data (some p.2)))) ∧
    (∃ i, ∃ hi : i < [wEv1, wEv2].length, ∃ mids stI,
      EventPublisher.publish_many ([wEv1, wEv2].take i) stFail2 = (Except.ok mids, stI) ∧
      EventPublisher.publish ([wEv1, wEv2].get ⟨i, hi⟩) stI =
        (Except.error RedisErr.connectionError, wSt5F) ∧
      wSt5F.streams = stI.streams ∧ wSt5F.groups = stI.groups) :=
  ⟨(publish_many_sequential [wEv1, wEv2] st0).1 [1, 1] wSt5 (by decide),
   (publish_many_sequential [wEv1, wEv2] stFail2).2 RedisErr.connectionError wSt5F (by decide)⟩

/-- C2: every event variant serializes to a flat string-keyed, string-valued
mapping whose keys are fixed and pairwise distinct, and the consumer's field
extraction (a lookup by field name) recovers every required field — the
envelope fields `event_id`, `timestamp`, the `event_type` discriminator, and
the variant's required payload fields — with its original string
representation.  The only list-valued payload field, `required_skills`, is
flattened to a single delimited string by the encoding. -/
theorem event_stream_data_roundtrip :
    (∀ e : TaskCreatedEvent,
      (e.to_stream_data.map Prod.fst).Nodup ∧
      alookup "event_id" e.to_stream_data = some e.event_id ∧
      alookup "timestamp" e.to_stream_data = some e.timestamp ∧
      alookup "event_type" e.to_stream_data = some "task.created" ∧
      alookup "project_id" e.to_stream_data = some e.project_id ∧
      alookup "task_id" e.to_stream_data = some e.task_id ∧
      alookup "title" e.to_stream_data = some e.title ∧
      alookup "priority" e.to_stream_data = some e.priority ∧
      alookup "required_skills" e.to_stream_data =
        some (pyUuidListStr e.required_skills)) ∧
    (∀ e : TaskStatusChangedEvent,
      (e.to_stream_data.map Prod.fst).Nodup ∧
      alookup "event_id" e.to_stream_data = some e.event_id ∧
      alookup "timestamp" e.to_stream_data = some e.timestamp ∧
      alookup "event_type" e.to_stream_data = some "task.status_changed" ∧
      alookup "project_id" e.to_stream_data = some e.project_id ∧
      alookup "task_id" e.to_stream_data = some e.task_id ∧
      alookup "previous_status" e.to_stream_data = some e.previous_status ∧
      alookup "new_status" e.to_stream_data = some e.new_status ∧
      alookup "changed_by_user_id" e.to_stream_data = some e.changed_by_user_id) ∧
    (∀ e : TaskCompletedEvent,
      (e.to_stream_data.map Prod.fst).Nodup ∧
      alookup "event_id" e.to_stream_data = some e.event_id ∧
      alookup "timestamp" e.to_stream_data = some e.timestamp ∧
      alookup "event_type" e.to_stream_data = some "task.completed" ∧
      alookup "project_id" e.to_stream_data = some e.project_id ∧
      alookup "task_id" e.to_stream_data = some e.task_id ∧
      alookup "completed_by_user_id" e.to_stream_data = some e.completed_by_user_id ∧
      alookup "actual_hours" e.to_stream_data = some e.actual_hours) ∧
    (∀ e : ProjectMilestoneEvent,
      (e.to_stream_data.map Prod.fst).Nodup ∧
      alookup "event_id" e.to_stream_data = some e.event_id ∧
      alookup "timestamp" e.to_stream_data = some e.timestamp ∧
      alookup "event_type" e.to_stream_data = some "project.milestone" ∧
      alookup "project_id" e.to_stream_data = some e.project_id ∧
      alookup "milestone_id" e.to_stream_data = some e.milestone_id ∧
      alookup "milestone_name" e.to_stream_data = some e.milestone_name ∧
      alookup "status" e.to_stream_data = some e.status) ∧
    (∀ e : AIAnalysisRequestedEvent,
      (e.to_stream_data.map Prod.fst).Nodup ∧
      alookup "event_id" e.to_stream_data = some e.event_id ∧
      alookup "timestamp" e.to_stream_data = some e.timestamp ∧
      alookup "event_type" e.to_stream_data = some "ai.analysis_requested" ∧
      alookup "request_id" e.to_stream_data = some e.request_id ∧
      alookup "analysis_type" e.to_stream_data = some e.analysis_type ∧
      alookup "project_id" e.to_stream_data = some e.project_id ∧
      alookup "requested_by_user_id" e.to_stream_data =
        some e.requested_by_user_id) ∧
    (∀ e : InsightGeneratedEvent,
      (e.to_stream_data.map Prod.fst).Nodup ∧
      alookup "event_id" e.to_stream_data = some e.event_id ∧
      alookup "timestamp" e.to_stream_data = some e.timestamp ∧
      alookup "event_type" e.to_stream_data = some "insight.generated" ∧
      alookup "insight_id" e.to_stream_data = some e.insight_id ∧
      alookup "project_id" e.to_stream_data = some e.project_id ∧
      alookup "insight_type" e.to_stream_data = some e.insight_type) ∧
    (∀ e : TimesheetSubmittedEvent,
      (e.to_stream_data.map Prod.fst).Nodup ∧
      alookup "event_id" e.to_stream_data = some e.event_id ∧
      alookup "timestamp" e.to_stream_data = some e.timestamp ∧
      alookup "event_type" e.to_stream_data = some "timesheet.submitted" ∧
      alookup "user_id" e.to_stream_data = some e.user_id ∧
      alookup "week_start_date" e.to_stream_data = some e.week_start_date ∧
      alookup "total_hours" e.to_stream_data = some e.total_hours ∧
      alookup "billable_hours" e.to_stream_data = some e.billable_hours) := by
  refine ⟨fun e => ⟨?_, rfl, rfl, rfl, rfl, rfl, rfl, rfl, rfl⟩,
    fun e => ⟨?_, rfl, rfl, rfl, rfl, rfl, rfl, rfl, rfl⟩,
    fun e => ⟨?_, rfl, rfl, rfl, rfl, rfl, rfl, rfl⟩,
    fun e => ⟨?_, rfl, rfl, rfl, rfl, rfl, rfl, rfl⟩,
    fun e => ⟨?_, rfl, rfl, rfl, rfl, rfl, rfl, rfl⟩,
    fun e => ⟨?_, rfl, rfl, rfl, rfl, rfl, rfl⟩,
    fun e => ⟨?_, rfl, rfl, rfl, rfl, rfl, rfl, rfl⟩⟩
  · have h : (TaskCreatedEvent.to_stream_data e).map Prod.fst =
        ["event_id", "timestamp", "event_type", "project_id", "task_id", "title",
         "assigned_to_user_id", "priority", "estimated_hours", "required_skills"] := rfl
    rw [h]; decide
  · have h : (TaskStatusChangedEvent.to_stream_data e).map Prod.fst =
        ["event_id", "timestamp", "event_type", "project_id", "task_id",
         "previous_status", "new_status", "changed_by_user_id",
         "completion_percentage"] := rfl
    rw [h]; decide
  · have h : (TaskCompletedEvent.to_stream_data e).map Prod.fst =
        ["event_id", "timestamp", "event_type", "project_id", "task_id",
         "completed_by_user_id", "actual_hours"] := rfl
    rw [h]; decide
  · have h : (ProjectMilestoneEvent.to_stream_data e).map Prod.fst =
        ["event_id", "timestamp", "event_type", "project_id", "milestone_id",
         "milestone_name", "status", "achievement_date"] := rfl
    rw [h]; decide
  · have h : (AIAnalysisRequestedEvent.to_stream_data e).map Prod.fst =
        ["event_id", "timestamp", "event_type", "request_id", "analysis_type",
         "project_id", "requested_by_user_id", "priority"] := rfl
    rw [h]; decide
  · have h : (InsightGeneratedEvent.to_stream_data e).map Prod.fst =
        ["event_id", "timestamp", "event_type", "insight_id", "project_id",
         "insight_type", "severity", "requires_attention"] := rfl
    rw [h]; decide
  · have h : (TimesheetSubmittedEvent.to_stream_data e).map Prod.fst =
        ["event_id", "timestamp", "event_type", "user_id", "week_start_date",
         "total_hours", "billable_hours"] := rfl
    rw [h]; decide

theorem xack_fail (stream group : String) (ids : List Nat) (st : RedisState)
    (t : Tick) (h : nextTick st = t) (hne : t ≠ Tick.ok) :
    Redis.xack stream group ids st =
      (Except.error t.err,
       ⟨st.streams, st.groups, st.failSchedule.tail,
        st.trace ++ [RedisCall.xack stream group ids false]⟩) := by
  unfold Redis.xack
  rcases hs : st.failSchedule with _ | ⟨u, rest⟩
  · exact absurd (by simpa [nextTick, hs] using h.symm) hne
  · have hu : u = t := by simpa [nextTick, hs] using h
    subst hu
    rcases u with _ | _ | _
    · exact absurd rfl hne
    · simp [RedisState.tick, hs, RedisState.logCall, Tick.err]
    · simp [RedisState.tick, hs, RedisState.logCall, Tick.err]

theorem xack_ok_none (stream group : String) (ids : List Nat) (st : RedisState)
    (h : nextTick st = Tick.ok) (hg : st.groupOf stream group = none) :
    Redis.xack stream group ids st =
      (Except.ok 0,
       ⟨st.streams, st.groups, st.failSchedule.tail,
        st.trace ++ [RedisCall.xack stream group ids true]⟩) := by
  simp only [RedisState.groupOf] at hg
  unfold Redis.xack
  rcases hs : st.failSchedule with _ | ⟨u, rest⟩
  · simp [RedisState.tick, hs, RedisState.groupOf, hg, RedisState.logCall]
  · have hu : u = Tick.ok := by simpa [nextTick, hs] using h
    subst hu
    simp [RedisState.tick, hs, RedisState.groupOf, hg, RedisState.logCall]

theorem xack_ok_some (stream group : String) (ids : List Nat) (st : RedisState)
    (gs : GroupState) (h : nextTick st = Tick.ok)
    (hg : st.groupOf stream group = some gs) :
    Redis.xack stream group ids st =
      (Except.ok (gs.pending.filter (fun p => ids.contains p.1)).length,
       ⟨st.streams,
        aupsert (stream, group)
          ⟨gs.lastDelivered, gs.pending.filter (fun p => !ids.contains p.1)⟩ st.groups,
        st.failSchedule.tail,
        st.trace ++ [RedisCall.xack stream group ids true]⟩) := by
  simp only [RedisState.groupOf] at hg
  unfold Redis.xack
  rcases hs : st.failSchedule with _ | ⟨u, rest⟩
  · simp [RedisState.tick, hs, RedisState.groupOf, hg, RedisState.logCall]
  · have hu : u = Tick.ok := by simpa [nextTick, hs] using h
    subst hu
    simp [RedisState.tick, hs, RedisState.groupOf, hg, RedisState.logCall]

/-- C9: when the handler returns successfully but the `ack` call itself
raises a connection error, the exception is caught by the same per-message
branch as a handler failure — the same `Error handling ...` line (stream name
and message id) is logged, the store's streams and groups (hence the
message's pending entry) are untouched, no cancellation propagates, and
processing continues with the remaining messages of the batch; no
1-second transient-error sleep is involved (that branch exists only around
the read, outside per-message processing). -/
theorem ack_failure_caught_per_message (group stream : String) (h : Handler)
    (mid : Nat) (data : Fields) (rest : List (Nat × Fields)) (st : RedisState)
    (hok : h mid data = HandlerOutcome.ok)
    (hfail : st.failSchedule.head? = some Tick.connFail) :
    processMessage group stream h mid data st =
      ⟨false,
       ⟨st.streams, st.groups, st.failSchedule.tail,
        st.trace ++ [RedisCall.xack stream group [mid] false]⟩,
       [LogMsg.handlerError stream mid]⟩ ∧
    processEntries group stream h ((mid, data) :: rest) st =
      (let r := processEntries group stream h rest
        ⟨st.streams, st.groups, st.failSchedule.tail,
         st.trace ++ [RedisCall.xack stream group [mid] false]⟩
       ⟨r.cancelled, r.st, LogMsg.handlerError stream mid :: r.logs⟩) := by
  have hx := xack_fail stream group [mid] st Tick.connFail
    (by simp [nextTick, hfail]) (by simp)
  have h1 : processMessage group stream h mid data st =
      ⟨false,
       ⟨st.streams, st.groups, st.failSchedule.tail,
        st.trace ++ [RedisCall.xack stream group [mid] false]⟩,
       [LogMsg.handlerError stream mid]⟩ := by
    unfold processMessage
    rw [hok]
    have hx₂ : RedisStreamClient.ack stream group [mid] st =
        (Except.error Tick.connFail.err,
         ⟨st.streams, st.groups, st.failSchedule.tail,
          st.trace ++ [RedisCall.xack stream group [mid] false]⟩) := hx
    rw [hx₂]
    rfl
  refine ⟨h1, ?_⟩
  show (let r := processMessage group stream h mid data st
        if r.cancelled then r
        else
          let r₂ := processEntries group stream h rest r.st
          ⟨r₂.cancelled, r₂.st, r.logs ++ r₂.logs⟩) = _
  rw [h1]
  rfl

theorem ack_failure_caught_per_message_witness :
    okHandler 1 [] = HandlerOutcome.ok ∧
    wStP.failSchedule.head? = some Tick.connFail ∧
    (processMessage "g" "task.completed" okHandler 1 [] wStP =
      ⟨false,
       ⟨wStP.streams, wStP.groups, wStP.failSchedule.tail,
        wStP.trace ++ [RedisCall.xack "task.completed" "g" [1] false]⟩,
       [LogMsg.handlerError "task.completed" 1]⟩ ∧
     processEntries "g" "task.completed" okHandler [(1, []), (2, [])] wStP =
      (let r := processEntries "g" "task.completed" okHandler [(2, [])]
        ⟨wStP.streams, wStP.groups, wStP.failSchedule.tail,
         wStP.trace ++ [RedisCall.xack "task.completed" "g" [1] false]⟩
       ⟨r.cancelled, r.st, LogMsg.handlerError "task.completed" 1 :: r.logs⟩)) :=
  ⟨rfl, rfl,
   ack_failure_caught_per_message "g" "task.completed" okHandler 1 [] [(2, [])] wStP rfl rfl⟩

theorem processMessage_logs (group stream : String) (h : Handler) (mid : Nat)
    (data : Fields) (st : RedisState) :
    ∀ m ∈ (processMessage group stream h mid data st).logs,
      m = LogMsg.handlerError stream mid := by
  intro m hm
  rcases hh : h mid data with _ | msg
  · rcases hr : RedisStreamClient.ack stream group [mid] st with ⟨res, st₂⟩
    cases res with
    | ok n =>
      simp only [processMessage, hh, hr] at hm
      simp at hm
    | error e =>
      cases e <;> simp only [processMessage, hh, hr] at hm <;> simp at hm <;>
        exact hm
  · simp only [processMessage, hh] at hm
    simp at hm
    exact hm

theorem processEntries_logs (group stream : String) (h : Handler) :
    ∀ msgs st, ∀ m ∈ (processEntries group stream h msgs st).logs,
      ∃ mid, m = LogMsg.handlerError stream mid := by
  intro msgs
  induction msgs with
  | nil =>
    intro st m hm
    simp [processEntries] at hm
  | cons p rest ih =>
    intro st m hm
    rcases p with ⟨mid, data⟩
    simp only [processEntries] at hm
    by_cases hc : (processMessage group stream h mid data st).cancelled = true
    · rw [if_pos hc] at hm
      exact ⟨mid, processMessage_logs group stream h mid data st m hm⟩
    · rw [if_neg hc] at hm
      simp only [List.mem_append] at hm
      rcases hm with hm | hm
      · exact ⟨mid, processMessage_logs group stream h mid data st m hm⟩
      · exact ih _ m hm

theorem processBatch_logs (sub : EventSubscriber) :
    ∀ batch st, ∀ m ∈ (processBatch sub batch st).logs,
      ∃ s mid, m = LogMsg.handlerError s mid := by
  intro batch
  induction batch with
  | nil =>
    intro st m hm
    simp [processBatch] at hm
  | cons p rest ih =>
    intro st m hm
    rcases p with ⟨s, msgs⟩
    rcases hh : alookup s sub.handlers with _ | hdl
    · simp only [processBatch, hh] at hm
      exact ih st m hm
    · simp only [processBatch, hh] at hm
      by_cases hc : (processEntries sub.group s hdl msgs st).cancelled = true
      · rw [if_pos hc] at hm
        obtain ⟨mid, hmid⟩ := processEntries_logs sub.group s hdl msgs st m hm
        exact ⟨s, mid, hmid⟩
      · rw [if_neg hc] at hm
        simp only [List.mem_append] at hm
        rcases hm with hm | hm
        · obtain ⟨mid, hmid⟩ := processEntries_logs sub.group s hdl msgs st m hm
          exact ⟨s, mid, hmid⟩
        · exact ih _ m hm

/-- C7: propagation policy of the consume loop — a transport-level error
raised by the `read_group` call (as opposed to inside a handler) never
terminates `start()`: it is caught, logged as the subscriber error line, and
answered with the fixed 1-second sleep before the loop retries; when the
read succeeds, the iteration never sleeps — handler-path failures are
swallowed with per-message `Error handling` logs only; and on the publish
path a failed append propagates to the immediate caller unchanged. -/
theorem read_error_policy (sub : EventSubscriber) (st : RedisState) :
    (∀ st₂ e, readCall sub st = (Except.error e, st₂) → e ≠ RedisErr.cancelled →
      loopIter sub st = (IterOutcome.sleepRetry 1, st₂, [LogMsg.subscriberError])) ∧
    (∀ batch st₂, readCall sub st = (Except.ok batch, st₂) →
      ((loopIter sub st).1 = IterOutcome.cont ∨ (loopIter sub st).1 = IterOutcome.stop) ∧
      (∀ m ∈ (loopIter sub st).2.2, ∃ s mid, m = LogMsg.handlerError s mid)) ∧
    (∀ (ev : Event) (st₃ : RedisState) (e : RedisErr) (st₄ : RedisState),
      Redis.xadd ev.event_type ev.to_stream_data DEFAULT_MAXLEN st₃ =
        (Except.error e, st₄) →
      EventPublisher.publish ev st₃ = (Except.error e, st₄)) := by
  refine ⟨?_, ?_, ?_⟩
  · intro st₂ e hread hne
    cases e with
    | connectionError => simp [loopIter, hread]
    | responseError msg => simp [loopIter, hread]
    | cancelled => exact absurd rfl hne
  · intro batch st₂ hread
    constructor
    · simp only [loopIter, hread]
      by_cases hc : (processBatch sub batch st₂).cancelled = true
      · right
        simp [hc]
      · left
        simp [hc]
    · intro m hm
      simp only [loopIter, hread] at hm
      exact processBatch_logs sub batch st₂ m (by simpa using hm)
  · intro ev st₃ e st₄ hx
    exact hx

theorem GroupSafe_of_groups_eq (st st₂ : RedisState) (s g : String) (n : Nat)
    (heq : st₂.groups = st.groups) (h : GroupSafe st s g n) : GroupSafe st₂ s g n := by
  intro gs hgs
  exact h gs (by rw [← hgs]; simp [RedisState.groupOf, heq])

theorem deliverNew_spec (ss : StreamState) (gs : GroupState) (consumer : String)
    (count : Nat) (n : Nat) (h1 : n ≤ gs.lastDelivered)
    (h2 : ∀ p ∈ gs.pending, n < p.1) :
    (∀ m ∈ (deliverNew ss gs consumer count).1, n < m.1) ∧
    n ≤ (deliverNew ss gs consumer count).2.lastDelivered ∧
    (∀ p ∈ (deliverNew ss gs consumer count).2.pending, n < p.1) := by
  have hmem : ∀ e ∈ (ss.entries.filter (fun e => decide (gs.lastDelivered < e.id))).take count,
      gs.lastDelivered < e.id := by
    intro e he
    have h3 := List.mem_of_mem_take he
    have h4 := List.of_mem_filter h3
    simpa using h4
  unfold deliverNew
  refine ⟨?_, ?_, ?_⟩
  · intro m hm
    simp only [List.mem_map] at hm
    obtain ⟨e, he, hme⟩ := hm
    have := hmem e he
    rw [← hme]
    exact lt_of_le_of_lt h1 this
  · rcases hl : ((ss.entries.filter
        (fun e => decide (gs.lastDelivered < e.id))).take count).getLast? with _ | e
    · simp only [hl]
      exact h1
    · simp only [hl]
      have hx : e ∈ ((ss.entries.filter
          (fun e => decide (gs.lastDelivered < e.id))).take count).getLast? := by
        rw [hl]; rfl
      obtain ⟨hne, hex⟩ := List.mem_getLast?_eq_getLast hx
      have he : e ∈ (ss.entries.filter
          (fun e => decide (gs.lastDelivered < e.id))).take count := by
        rw [hex]; exact List.getLast_mem hne
      exact le_of_lt (lt_of_le_of_lt h1 (hmem e he))
  · intro p hp
    simp only [List.mem_append, List.mem_map] at hp
    rcases hp with hp | ⟨e, he, hpe⟩
    · exact h2 p hp
    · rw [← hpe]
      exact lt_of_le_of_lt h1 (hmem e he)

theorem deliverPending_spec (ss : StreamState) (gs : GroupState) (consumer : String)
    (cursor count : Nat) (n : Nat) (h2 : ∀ p ∈ gs.pending, n < p.1) :
    ∀ m ∈ deliverPending ss gs consumer cursor count, n < m.1 := by
  intro m hm
  unfold deliverPending at hm
  simp only [List.mem_map] at hm
  obtain ⟨e, he, hme⟩ := hm
  have h3 := List.mem_of_mem_take he
  have h4 := List.of_mem_filter h3
  simp only [Bool.and_eq_true, decide_eq_true_eq] at h4
  rw [← hme]
  exact h2 (e.id, consumer) h4.2

theorem readStreams_safe (group consumer : String) (count : Nat) (s g : String) (n : Nat) :
    ∀ streams st, GroupSafe st s g n →
      GroupSafe (Redis.readStreams group consumer count streams st).2 s g n ∧
      (group = g →
        ∀ pr ∈ (Redis.readStreams group consumer count streams st).1, pr.1 = s →
          ∀ m ∈ pr.2, n < m.1) := by
  intro streams
  induction streams with
  | nil =>
    intro st h
    refine ⟨h, ?_⟩
    intro _ pr hpr
    simp [Redis.readStreams] at hpr
  | cons sc rest ih =>
    intro st h
    rcases sc with ⟨s₂, cur⟩
    rcases hg : st.groupOf s₂ group with _ | gs
    · have heq : Redis.readStreams group consumer count ((s₂, cur) :: rest) st =
          Redis.readStreams group consumer count rest st := by
        conv_lhs => rw [Redis.readStreams]
        rw [hg]
      rw [heq]
      exact ih st h
    · by_cases hcur : cur = ">"
      · subst hcur
        rcases hd : deliverNew (st.streamOf s₂) gs consumer count with ⟨msgs, gs₂⟩
        rcases hr : Redis.readStreams group consumer count rest
            { st with groups := aupsert (s₂, group) gs₂ st.groups } with ⟨restRes, st₃⟩
        have heq : Redis.readStreams group consumer count ((s₂, ">") :: rest) st =
            ((if msgs.isEmpty then restRes else (s₂, msgs) :: restRes), st₃) := by
          conv_lhs => rw [Redis.readStreams]
          simp [hg, hd, hr]
        have hsafe₂ : GroupSafe
            { st with groups := aupsert (s₂, group) gs₂ st.groups } s g n := by
          intro gsx hgsx
          by_cases hks : ((s, g) : String × String) = (s₂, group)
          · obtain ⟨hks1, hks2⟩ := Prod.mk.injEq .. ▸ hks
            have hgs : st.groupOf s g = some gs := by rw [hks1, hks2]; exact hg
            obtain ⟨hb1, hb2⟩ := h gs hgs
            have spec := deliverNew_spec (st.streamOf s₂) gs consumer count n hb1 hb2
            rw [hd] at spec
            have : gsx = gs₂ := by
              simp only [RedisState.groupOf] at hgsx
              rw [show ((s, g) : String × String) = (s₂, group) from hks] at hgsx
              rw [alookup_aupsert_self] at hgsx
              exact (Option.some.inj hgsx).symm
            rw [this]
            exact ⟨spec.2.1, spec.2.2⟩
          · have : RedisState.groupOf
                { st with groups := aupsert (s₂, group) gs₂ st.groups } s g =
                st.groupOf s g := by
              simp only [RedisState.groupOf]
              exact alookup_aupsert_ne (s, g) (s₂, group) gs₂ st.groups hks
            rw [this] at hgsx
            exact h gsx hgsx
        have hrec := ih { st with groups := aupsert (s₂, group) gs₂ st.groups } hsafe₂
        rw [hr] at hrec
        constructor
        · rw [heq]
          exact hrec.1
        · intro hgg pr hpr
          rw [heq] at hpr
          by_cases he : msgs.isEmpty
          · rw [if_pos he] at hpr
            exact hrec.2 hgg pr hpr
          · rw [if_neg he] at hpr
            rcases List.mem_cons.mp hpr with hpr | hpr
            · subst hpr
              intro hps m hm
              have hgs : st.groupOf s g = some gs := by
                rw [← hps, ← hgg] at h ⊢
                exact hg
              obtain ⟨hb1, hb2⟩ := h gs hgs
              have spec := deliverNew_spec (st.streamOf s₂) gs consumer count n hb1 hb2
              rw [hd] at spec
              exact spec.1 m hm
            · exact hrec.2 hgg pr hpr
      · rcases hr : Redis.readStreams group consumer count rest st with ⟨restRes, st₃⟩
        have heq : Redis.readStreams group consumer count ((s₂, cur) :: rest) st =
            ((if (deliverPending (st.streamOf s₂) gs consumer
                  (parseStartId cur) count).isEmpty
              then restRes
              else (s₂, deliverPending (st.streamOf s₂) gs consumer
                  (parseStartId cur) count) :: restRes), st₃) := by
          conv_lhs => rw [Redis.readStreams]
          simp [hg, hcur, hr]
        have hrec := ih st h
        rw [hr] at hrec
        constructor
        · rw [heq]
          exact hrec.1
        · intro hgg pr hpr
          rw [heq] at hpr
          by_cases he : (deliverPending (st.streamOf s₂) gs consumer
              (parseStartId cur) count).isEmpty
          · rw [if_pos he] at hpr
            exact hrec.2 hgg pr hpr
          · rw [if_neg he] at hpr
            rcases List.mem_cons.mp hpr with hpr | hpr
            · subst hpr
              intro hps m hm
              have hgs : st.groupOf s g = some gs := by
                rw [← hps, ← hgg] at h ⊢
                exact hg
              obtain ⟨_, hb2⟩ := h gs hgs
              exact deliverPending_spec (st.streamOf s₂) gs consumer
                (parseStartId cur) count n hb2 m hm
            · exact hrec.2 hgg pr hpr

theorem xreadgroup_safe (group consumer : String) (streams : List (String × String))
    (count : Nat) (st : RedisState) (s g : String) (n : Nat)
    (h : GroupSafe st s g n) :
    GroupSafe (Redis.xreadgroup group consumer streams count st).2 s g n ∧
    (∀ res, (Redis.xreadgroup group consumer streams count st).1 = Except.ok res →
      group = g → ∀ pr ∈ res, pr.1 = s → ∀ m ∈ pr.2, n < m.1) := by
  have hts : GroupSafe (tickState st) s g n :=
    GroupSafe_of_groups_eq st (tickState st) s g n rfl h
  unfold Redis.xreadgroup
  rw [tick_eq]
  rcases ht : nextTick st with _ | _ | _
  · simp only []
    by_cases hng : streams.any (fun sc => ((tickState st).groupOf sc.1 group).isNone)
    · rw [if_pos hng]
      refine ⟨GroupSafe_of_groups_eq (tickState st) _ s g n rfl hts, ?_⟩
      intro res hres
      simp at hres
    · rw [if_neg hng]
      rcases hrs : Redis.readStreams group consumer count streams (tickState st)
        with ⟨res, st₂⟩
      have hsafe := readStreams_safe group consumer count s g n streams (tickState st) hts
      rw [hrs] at hsafe
      refine ⟨GroupSafe_of_groups_eq st₂ _ s g n rfl hsafe.1, ?_⟩
      intro res₂ hres₂ hgg pr hpr
      have h3 : res = res₂ := by
        simpa using hres₂
      subst h3
      exact hsafe.2 hgg pr hpr
  · simp only []
    exact ⟨GroupSafe_of_groups_eq (tickState st) _ s g n rfl hts, by intro res hres; simp at hres⟩
  · simp only []
    exact ⟨GroupSafe_of_groups_eq (tickState st) _ s g n rfl hts, by intro res hres; simp at hres⟩

theorem xadd_groups (stream : String) (data : Fields) (maxlen : Nat) (st : RedisState) :
    (Redis.xadd stream data maxlen st).2.groups = st.groups := by
  unfold Redis.xadd
  rw [tick_eq]
  rcases ht : nextTick st with _ | _ | _ <;> simp [RedisState.logCall, tickState]

theorem xack_safe (stream group : String) (ids : List Nat) (st : RedisState)
    (s g : String) (n : Nat) (h : GroupSafe st s g n) :
    GroupSafe (Redis.xack stream group ids st).2 s g n := by
  have hts : GroupSafe (tickState st) s g n :=
    GroupSafe_of_groups_eq st (tickState st) s g n rfl h
  unfold Redis.xack
  rw [tick_eq]
  rcases ht : nextTick st with _ | _ | _
  · simp only []
    rcases hg : (tickState st).groupOf stream group with _ | gs
    · simp only [hg]
      exact GroupSafe_of_groups_eq (tickState st) _ s g n rfl hts
    · simp only [hg]
      intro gsx hgsx
      simp only [RedisState.groupOf, RedisState.logCall] at hgsx
      by_cases hks : ((s, g) : String × String) = (stream, group)
      · obtain ⟨hxs, hxg⟩ := Prod.mk.injEq .. ▸ hks
        rw [hks, alookup_aupsert_self] at hgsx
        obtain ⟨hb1, hb2⟩ := hts gs (by rw [hxs, hxg]; exact hg)
        rw [← (Option.some.inj hgsx)]
        refine ⟨hb1, ?_⟩
        intro p hp
        exact hb2 p (List.mem_of_mem_filter hp)
      · rw [alookup_aupsert_ne (s, g) (stream, group) _ _ hks] at hgsx
        exact hts gsx hgsx
  · simp only []
    exact GroupSafe_of_groups_eq (tickState st) _ s g n rfl hts
  · simp only []
    exact GroupSafe_of_groups_eq (tickState st) _ s g n rfl hts

theorem deliveriesOf_mem (g : String) (batch : List (String × List (Nat × Fields)))
    (d : Delivery) (hd : d ∈ deliveriesOf g batch) :
    d.group = g ∧ ∃ pr ∈ batch, pr.1 = d.stream ∧ ∃ m ∈ pr.2, m.1 = d.mid := by
  unfold deliveriesOf at hd
  simp only [List.mem_flatMap, List.mem_map] at hd
  obtain ⟨pr, hpr, m, hm, hdm⟩ := hd
  subst hdm
  exact ⟨rfl, pr, hpr, rfl, m, hm, rfl⟩

theorem runOp_safe (s g : String) (n : Nat) (op : SysOp) (st : RedisState)
    (h : GroupSafe st s g n) :
    GroupSafe (runOp op st).1 s g n ∧
    (∀ d ∈ (runOp op st).2, d.group = g → d.stream = s → n < d.mid) := by
  rcases op with ⟨s₂, f⟩ | ⟨g₂, c₂, strs, cnt⟩ | ⟨s₂, g₂, mid⟩
  · refine ⟨?_, ?_⟩
    · exact GroupSafe_of_groups_eq st _ s g n (xadd_groups s₂ f DEFAULT_MAXLEN st) h
    · intro d hd
      simp [runOp] at hd
  · have hx := xreadgroup_safe g₂ c₂ strs cnt st s g n h
    rcases hres : Redis.xreadgroup g₂ c₂ strs cnt st with ⟨r, st₂⟩
    cases r with
    | ok batch =>
      have heq : runOp (SysOp.readOp g₂ c₂ strs cnt) st = (st₂, deliveriesOf g₂ batch) := by
        simp [runOp, hres]
      rw [heq]
      constructor
      · have := hx.1
        rw [hres] at this
        exact this
      · intro d hd hdg hds
        obtain ⟨hdg₂, pr, hpr, hprs, m, hm, hmid⟩ := deliveriesOf_mem g₂ batch d hd
        have hg₂g : g₂ = g := by rw [← hdg₂, hdg]
        have h2 := hx.2 batch (by rw [hres]) hg₂g pr hpr (by rw [hprs, hds])
        rw [← hmid]
        exact h2 m hm
    | error e =>
      have heq : runOp (SysOp.readOp g₂ c₂ strs cnt) st = (st₂, []) := by
        simp [runOp, hres]
      rw [heq]
      constructor
      · have := hx.1
        rw [hres] at this
        exact this
      · intro d hd
        simp at hd
  · refine ⟨?_, ?_⟩
    · exact xack_safe s₂ g₂ [mid] st s g n h
    · intro d hd
      simp [runOp] at hd

theorem runOps_safe (s g : String) (n : Nat) :
    ∀ ops st, GroupSafe st s g n →
      GroupSafe (runOps ops st).1 s g n ∧
      (∀ d ∈ (runOps ops st).2, d.group = g → d.stream = s → n < d.mid) := by
  intro ops
  induction ops with
  | nil =>
    intro st h
    exact ⟨h, by intro d hd; simp [runOps] at hd⟩
  | cons op rest ih =>
    intro st h
    have h1 := runOp_safe s g n op st h
    have h2 := ih (runOp op st).1 h1.1
    constructor
    · simpa [runOps] using h2.1
    · intro d hd hdg hds
      simp only [runOps, List.mem_append] at hd
      rcases hd with hd | hd
      · exact h1.2 d hd hdg hds
      · exact h2.2 d hd hdg hds

theorem create_consumer_group_fail (stream group startId : String) (st : RedisState)
    (t : Tick) (h : nextTick st = t) (hne : t ≠ Tick.ok) :
    RedisStreamClient.create_consumer_group stream group startId st =
      (Except.error t.err,
       ⟨st.streams, st.groups, st.failSchedule.tail,
        st.trace ++ [RedisCall.xgroupCreate stream group startId false]⟩) := by
  unfold RedisStreamClient.create_consumer_group Redis.xgroupCreate
  rw [tick_eq, h]
  rcases t with _ | _ | _
  · exact absurd rfl hne
  · simp [RedisState.logCall, tickState, Tick.err]
  · simp [RedisState.logCall, tickState, Tick.err]

theorem createGroups_spec (g : String) :
    ∀ streams st st₁, streams.Nodup → (∀ s ∈ streams, st.groupOf s g = none) →
      createGroups g streams st = (Except.ok (), st₁) →
      (∀ s ∈ streams,
        st₁.groupOf s g = some ⟨(st.streamOf s).lastId, []⟩ ∧
        RedisCall.xgroupCreate s g "$" true ∈ st₁.trace) ∧
      (∀ s' g', (s', g') ∉ streams.map (fun s => ((s, g) : String × String)) →
        st₁.groupOf s' g' = st.groupOf s' g') ∧
      (∃ delta, st₁.trace = st.trace ++ delta) := by
  intro streams
  induction streams with
  | nil =>
    intro st st₁ _ _ hrun
    simp only [createGroups, Prod.mk.injEq] at hrun
    obtain ⟨_, h2⟩ := hrun
    subst h2
    exact ⟨by simp, fun s' g' _ => rfl, ⟨[], by simp⟩⟩
  | cons s rest ih =>
    intro st st₁ hnd hfresh hrun
    rcases ht : nextTick st with _ | _ | _
    case connFail =>
      have hfail := create_consumer_group_fail s g "$" st Tick.connFail ht (by simp)
      simp only [createGroups, hfail] at hrun
      simp at hrun
    case cancel =>
      have hfail := create_consumer_group_fail s g "$" st Tick.cancel ht (by simp)
      simp only [createGroups, hfail] at hrun
      simp at hrun
    case ok =>
      have hfr : st.groupOf s g = none := hfresh s (List.mem_cons_self s rest)
      have hc := create_consumer_group_fresh s g "$" st ht hfr
      simp only [createGroups, hc] at hrun
      have hsrest : s ∉ rest := (List.nodup_cons.mp hnd).1
      have hndrest : rest.Nodup := (List.nodup_cons.mp hnd).2
      have hfreshrest : ∀ s₂ ∈ rest,
          RedisState.groupOf
            ⟨(if (alookup s st.streams).isSome then st.streams
              else aupsert s emptyStream st.streams),
             aupsert (s, g) ⟨interpStartId "$" (st.streamOf s), []⟩ st.groups,
             st.failSchedule.tail,
             st.trace ++ [RedisCall.xgroupCreate s g "$" true]⟩ s₂ g = none := by
        intro s₂ hs₂
        have hne₂ : ((s₂, g) : String × String) ≠ (s, g) := by
          intro hcon
          obtain ⟨hcon1, _⟩ := Prod.mk.injEq .. ▸ hcon
          exact hsrest (hcon1 ▸ hs₂)
        simp only [RedisState.groupOf]
        rw [alookup_aupsert_ne (s₂, g) (s, g) _ _ hne₂]
        exact hfresh s₂ (List.mem_cons_of_mem s hs₂)
      obtain ⟨hper, hunt, ⟨dtr, htr⟩⟩ := ih _ st₁ hndrest hfreshrest hrun
      have hstream₂ : ∀ s₂ : String, RedisState.streamOf
          ⟨(if (alookup s st.streams).isSome then st.streams
            else aupsert s emptyStream st.streams),
           aupsert (s, g) ⟨interpStartId "$" (st.streamOf s), []⟩ st.groups,
           st.failSchedule.tail,
           st.trace ++ [RedisCall.xgroupCreate s g "$" true]⟩ s₂ =
          st.streamOf s₂ := by
        intro s₂
        simp only [RedisState.streamOf]
        by_cases hpres : (alookup s st.streams).isSome
        · rw [if_pos hpres]
        · rw [if_neg hpres]
          by_cases hss : s₂ = s
          · subst hss
            rw [alookup_aupsert_self]
            rcases hl : alookup s₂ st.streams with _ | v
            · rfl
            · exact absurd (by simp [hl]) hpres
          · rw [alookup_aupsert_ne s₂ s _ _ hss]
      refine ⟨?_, ?_, ?_⟩
      · intro s₂ hs₂
        rcases List.mem_cons.mp hs₂ with hs₂ | hs₂
        · subst hs₂
          constructor
          · have hnotin : ((s₂, g) : String × String) ∉
                rest.map (fun s => ((s, g) : String × String)) := by
              simp only [List.mem_map, not_exists]
              intro s₃ hcon
              obtain ⟨hm, heq⟩ := hcon
              obtain ⟨h1, _⟩ := Prod.mk.injEq .. ▸ heq
              exact hsrest (h1 ▸ hm)
            have := hunt s₂ g hnotin
            rw [this]
            simp only [RedisState.groupOf]
            rw [alookup_aupsert_self]
            simp [interpStartId]
          · rw [htr]
            simp
        · obtain ⟨h1, h2⟩ := hper s₂ hs₂
          constructor
          · rw [h1, hstream₂ s₂]
          · exact h2
      · intro s' g' hnot
        have hnot₂ : ((s', g') : String × String) ∉
            rest.map (fun s => ((s, g) : String × String)) := by
          intro hcon
          exact hnot (by
            simp only [List.map_cons, List.mem_cons]
            exact Or.inr hcon)
        have hne' : ((s', g') : String × String) ≠ (s, g) := by
          intro hcon
          exact hnot (by
            simp only [List.map_cons, List.mem_cons]
            exact Or.inl hcon)
        rw [hunt s' g' hnot₂]
        simp only [RedisState.groupOf]
        rw [alookup_aupsert_ne (s', g') (s, g) _ _ hne']
      · refine ⟨[RedisCall.xgroupCreate s g "$" true] ++ dtr, ?_⟩
        rw [htr]
        simp

/-- C4: `start()` creates, for every registered stream, the consumer group
with start id `"$"` (new messages only) before entering the consume loop,
and consequently a subscriber whose group did not previously exist is never
delivered a message appended before the group was created: under any
sequence of subsequent store operations (appends, group reads by any
consumer, acknowledgements), every message delivered to the subscriber's
group on a registered stream has an id strictly above every entry that
existed at start time. -/
theorem subscriber_no_replay (sub : EventSubscriber) (st : RedisState)
    (hnd : (sub.handlers.map Prod.fst).Nodup)
    (hfresh : ∀ s ∈ sub.handlers.map Prod.fst, st.groupOf s sub.group = none)
    (hwf : ∀ s, StreamWF st s)
    (sub₂ : EventSubscriber)
    (hok : (sub.startInit st).1 = Except.ok sub₂) :
    (∀ s ∈ sub.handlers.map Prod.fst,
      RedisCall.xgroupCreate s sub.group "$" true ∈ (sub.startInit st).2.trace) ∧
    (∀ ops, ∀ d ∈ (runOps ops (sub.startInit st).2).2, d.group = sub.group →
      d.stream ∈ sub.handlers.map Prod.fst →
      ∀ e ∈ (st.streamOf d.stream).entries, e.id < d.mid) := by
  by_cases hemp : sub.handlers.isEmpty
  · simp [EventSubscriber.startInit, hemp] at hok
  · rcases hcg : createGroups sub.group (sub.handlers.map Prod.fst) st with ⟨r, st₁⟩
    cases r with
    | error e =>
      rw [show (sub.startInit st).1 = Except.error (StartErr.redisError e) by
        simp [EventSubscriber.startInit, hemp, hcg]] at hok
      simp at hok
    | ok u =>
      have hst : (sub.startInit st).2 = st₁ := by
        simp [EventSubscriber.startInit, hemp, hcg]
      obtain ⟨hper, _, _⟩ :=
        createGroups_spec sub.group (sub.handlers.map Prod.fst) st st₁ hnd hfresh hcg
      rw [hst]
      constructor
      · intro s hs
        exact (hper s hs).2
      · intro ops d hd hdg hds e he
        have hsafe₁ : GroupSafe st₁ d.stream sub.group
            ((st.streamOf d.stream).lastId) := by
          intro gs hgs
          rw [(hper d.stream hds).1] at hgs
          rw [← Option.some.inj hgs]
          exact ⟨le_refl _, by intro p hp; simp at hp⟩
        have hrun := (runOps_safe d.stream sub.group
          ((st.streamOf d.stream).lastId) ops st₁ hsafe₁).2 d hd hdg rfl
        exact lt_of_le_of_lt (hwf d.stream e he) hrun

theorem subscriber_no_replay_witness :
    (∀ s ∈ wSub4.handlers.map Prod.fst,
      RedisCall.xgroupCreate s wSub4.group "$" true ∈ (wSub4.startInit wSt4).2.trace) ∧
    (∀ d ∈ (runOps wOps4 (wSub4.startInit wSt4).2).2, d.group = wSub4.group →
      d.stream ∈ wSub4.handlers.map Prod.fst →
      ∀ e ∈ (wSt4.streamOf d.stream).entries, e.id < d.mid) := by
  have hwf : ∀ s, StreamWF wSt4 s := by
    intro s e he
    by_cases hs : s = "task.created"
    · subst hs
      have h1 : (wSt4.streamOf "task.created").entries = [⟨1, []⟩, ⟨2, []⟩] := rfl
      rw [h1] at he
      rcases List.mem_cons.mp he with he | he
      · rw [he]
        decide
      · rcases List.mem_cons.mp he with he | he
        · rw [he]
          decide
        · simp at he
    · have h3 : wSt4.streamOf s = emptyStream := by
        simp [wSt4, RedisState.streamOf, alookup, hs]
      rw [h3] at he
      simp [emptyStream] at he
  have h := subscriber_no_replay wSub4 wSt4 (by decide) (by decide) hwf wSub4R rfl
  exact ⟨h.1, h.2 wOps4⟩

theorem runOp_read_single_new (group consumer stream : String) (count : Nat)
    (st : RedisState) (gs : GroupState)
    (ht : nextTick st = Tick.ok)
    (hg : st.groupOf stream group = some gs) :
    (runOp (SysOp.readOp group consumer [(stream, ">")] count) st).2 =
      (deliverNew (st.streamOf stream) gs consumer count).1.map
        (fun m => ⟨group, stream, m.1⟩) := by
  have hgt : (tickState st).groupOf stream group = some gs := hg
  rcases hd : deliverNew ((tickState st).streamOf stream) gs consumer count
    with ⟨msgs, gs₂⟩
  have hrs : Redis.readStreams group consumer count [(stream, ">")] (tickState st) =
      ((if msgs.isEmpty then [] else [(stream, msgs)]),
       { streams := (tickState st).streams,
         groups := aupsert (stream, group) gs₂ (tickState st).groups,
         failSchedule := (tickState st).failSchedule,
         trace := (tickState st).trace }) := by
    conv_lhs => rw [Redis.readStreams]
    simp [hgt, hd, Redis.readStreams]
  have hread : Redis.xreadgroup group consumer [(stream, ">")] count st =
      (Except.ok (if msgs.isEmpty then [] else [(stream, msgs)]),
       RedisState.logCall
         { streams := (tickState st).streams,
           groups := aupsert (stream, group) gs₂ (tickState st).groups,
           failSchedule := (tickState st).failSchedule,
           trace := (tickState st).trace }
         (RedisCall.xreadgroup group consumer
           ([((stream : String), (">" : String))].map Prod.fst) true)) := by
    unfold Redis.xreadgroup
    rw [tick_eq, ht]
    have hany : ([((stream : String), (">" : String))].any
        (fun sc => ((tickState st).groupOf sc.1 group).isNone)) = false := by
      simp [hgt]
    simp only [hany, Bool.false_eq_true, if_false, hrs]
  have hsts : (tickState st).streamOf stream = st.streamOf stream := rfl
  rw [hsts] at hd
  have hruneq : runOp (SysOp.readOp group consumer [(stream, ">")] count) st =
      (RedisState.logCall
         ⟨(tickState st).streams,
          aupsert (stream, group) gs₂ (tickState st).groups,
          (tickState st).failSchedule,
          (tickState st).trace⟩
         (RedisCall.xreadgroup group consumer
           ([((stream : String), (">" : String))].map Prod.fst) true),
       deliveriesOf group (if msgs.isEmpty then [] else [(stream, msgs)])) := by
    simp [runOp, hread]
  rw [hruneq]
  rw [hd]
  by_cases hemp : msgs.isEmpty
  · rw [if_pos hemp]
    have : msgs = [] := List.isEmpty_iff.mp hemp
    subst this
    simp [deliveriesOf]
  · rw [if_neg hemp]
    simp [deliveriesOf]

theorem default_group_read_all (stream group consumer : String) (count : Nat)
    (stOrig st₁ : RedisState)
    (hok₁ : nextTick st₁ = Tick.ok)
    (hg₁ : st₁.groupOf stream group = some ⟨0, []⟩)
    (hs₁ : st₁.streamOf stream = stOrig.streamOf stream)
    (hpos : ∀ e ∈ (stOrig.streamOf stream).entries, 0 < e.id)
    (hcount : (stOrig.streamOf stream).entries.length ≤ count) :
    (runOp (SysOp.readOp group consumer [(stream, ">")] count) st₁).2 =
      (stOrig.streamOf stream).entries.map (fun e => ⟨group, stream, e.id⟩) := by
  rw [runOp_read_single_new group consumer stream count st₁ ⟨0, []⟩ hok₁ hg₁, hs₁]
  have hdel1 : (deliverNew (stOrig.streamOf stream) ⟨0, []⟩ consumer count).1 =
      (stOrig.streamOf stream).entries.map (fun e => (e.id, e.fields)) := by
    show (((stOrig.streamOf stream).entries.filter
        (fun e => decide ((0 : Nat) < e.id))).take count).map (fun e => (e.id, e.fields)) = _
    rw [List.filter_eq_self.mpr (fun e he => by simpa using hpos e he),
        List.take_of_length_le hcount]
  rw [hdel1]
  simp [List.map_map, Function.comp]

theorem create_consumer_group_trace_shape (stream group startId : String)
    (st : RedisState) :
    ∃ delta, (RedisStreamClient.create_consumer_group stream group startId st).2.trace =
        st.trace ++ delta ∧
      ∀ c ∈ delta, ∃ b, c = RedisCall.xgroupCreate stream group startId b := by
  rcases ht : nextTick st with _ | _ | _
  · rcases hg : st.groupOf stream group with _ | gs
    · rw [create_consumer_group_fresh stream group startId st ht hg]
      exact ⟨[RedisCall.xgroupCreate stream group startId true], rfl,
        by intro c hc; simp at hc; exact ⟨true, hc⟩⟩
    · rw [create_consumer_group_busy stream group startId st ht gs hg]
      exact ⟨[RedisCall.xgroupCreate stream group startId false], rfl,
        by intro c hc; simp at hc; exact ⟨false, hc⟩⟩
  · rw [create_consumer_group_fail stream group startId st Tick.connFail ht (by simp)]
    exact ⟨[RedisCall.xgroupCreate stream group startId false], rfl,
      by intro c hc; simp at hc; exact ⟨false, hc⟩⟩
  · rw [create_consumer_group_fail stream group startId st Tick.cancel ht (by simp)]
    exact ⟨[RedisCall.xgroupCreate stream group startId false], rfl,
      by intro c hc; simp at hc; exact ⟨false, hc⟩⟩

theorem createGroups_trace_shape (g : String) :
    ∀ streams st, ∃ delta, (createGroups g streams st).2.trace = st.trace ++ delta ∧
      ∀ c ∈ delta, ∃ s b, c = RedisCall.xgroupCreate s g "$" b := by
  intro streams
  induction streams with
  | nil =>
    intro st
    exact ⟨[], by simp [createGroups], by intro c hc; simp at hc⟩
  | cons s rest ih =>
    intro st
    rcases hc : RedisStreamClient.create_consumer_group s g "$" st with ⟨rc, st₂⟩
    obtain ⟨d₁, hd₁, hshape₁⟩ := create_consumer_group_trace_shape s g "$" st
    rw [hc] at hd₁
    cases rc with
    | ok b =>
      obtain ⟨d₂, hd₂, hshape₂⟩ := ih st₂
      refine ⟨d₁ ++ d₂, ?_, ?_⟩
      · have heq : (createGroups g (s :: rest) st).2 = (createGroups g rest st₂).2 := by
          simp [createGroups, hc]
        rw [heq, hd₂, hd₁]
        simp
      · intro c hcm
        rcases List.mem_append.mp hcm with hcm | hcm
        · obtain ⟨b₂, hb₂⟩ := hshape₁ c hcm
          exact ⟨s, b₂, hb₂⟩
        · exact hshape₂ c hcm
    | error e =>
      refine ⟨d₁, ?_, ?_⟩
      · have heq : (createGroups g (s :: rest) st).2 = st₂ := by
          simp [createGroups, hc]
        rw [heq, hd₁]
      · intro c hcm
        obtain ⟨b₂, hb₂⟩ := hshape₁ c hcm
        exact ⟨s, b₂, hb₂⟩

/-- C10: the `start_id` parameter of `create_consumer_group` defaults to
`"0"` — replay full history — so a direct caller of the log client that
omits it creates a group positioned to deliver the entire existing stream
(a subsequent `">"` group read hands every existing entry to the caller's
consumer); only `Subscriber.start()` overrides the default with `"$"`:
every group-creation command it issues carries start id `"$"`. -/
theorem create_consumer_group_default_replays (stream group consumer : String)
    (st : RedisState) (count : Nat) (hok : allOk st)
    (hfresh : st.groupOf stream group = none)
    (hpos : ∀ e ∈ (st.streamOf stream).entries, 0 < e.id)
    (hcount : (st.streamOf stream).entries.length ≤ count) :
    DEFAULT_START_ID = "0" ∧
    (∃ st₁, RedisStreamClient.create_consumer_group_default stream group st =
        (Except.ok true, st₁) ∧
      st₁.groupOf stream group = some ⟨0, []⟩ ∧
      (runOp (SysOp.readOp group consumer [(stream, ">")] count) st₁).2 =
        (st.streamOf stream).entries.map (fun e => ⟨group, stream, e.id⟩)) ∧
    (∀ (sub : EventSubscriber) (st₂ : RedisState),
      ∀ c ∈ traceDelta st₂ (sub.startInit st₂).2,
        ∃ s b, c = RedisCall.xgroupCreate s sub.group "$" b) := by
  refine ⟨rfl, ?_, ?_⟩
  · have hc := create_consumer_group_fresh stream group DEFAULT_START_ID st
      (allOk_nextTick st hok) hfresh
    have hzero : interpStartId DEFAULT_START_ID (st.streamOf stream) = 0 := by
      show (if DEFAULT_START_ID = "$" then (st.streamOf stream).lastId
            else parseStartId DEFAULT_START_ID) = 0
      rw [if_neg (by decide)]
      decide
    rw [hzero] at hc
    refine ⟨_, hc, ?_, ?_⟩
    · simp [RedisState.groupOf, alookup_aupsert_self]
    · -- the read after the default-creation delivers the whole stream
      have hstream₁ : RedisState.streamOf
          ⟨(if (alookup stream st.streams).isSome then st.streams
            else aupsert stream emptyStream st.streams),
           aupsert (stream, group) ⟨0, []⟩ st.groups,
           st.failSchedule.tail,
           st.trace ++ [RedisCall.xgroupCreate stream group DEFAULT_START_ID true]⟩
          stream = st.streamOf stream := by
        simp only [RedisState.streamOf]
        by_cases hpres : (alookup stream st.streams).isSome
        · rw [if_pos hpres]
        · rw [if_neg hpres]
          rw [alookup_aupsert_self]
          rcases hl : alookup stream st.streams with _ | v
          · rfl
          · exact absurd (by simp [hl]) hpres
      exact default_group_read_all stream group consumer count st _
        (allOk_nextTick _ (fun t htt => hok t (List.mem_of_mem_tail htt)))
        (by simp [RedisState.groupOf, alookup_aupsert_self])
        hstream₁ hpos hcount
  · intro sub st₂ c hcm
    by_cases hemp : sub.handlers.isEmpty
    · have : (sub.startInit st₂).2 = st₂ := by
        simp [EventSubscriber.startInit, hemp]
      rw [this] at hcm
      simp [traceDelta] at hcm
    · rcases hcg : createGroups sub.group (sub.handlers.map Prod.fst) st₂ with ⟨r, st₃⟩
      obtain ⟨delta, hdelta, hshape⟩ :=
        createGroups_trace_shape sub.group (sub.handlers.map Prod.fst) st₂
      rw [hcg] at hdelta
      have hst : (sub.startInit st₂).2 = st₃ := by
        cases r with
        | ok u => simp [EventSubscriber.startInit, hemp, hcg]
        | error e => simp [EventSubscriber.startInit, hemp, hcg]
      rw [hst] at hcm
      have hdelta₂ : st₃.trace = st₂.trace ++ delta := hdelta
      have : traceDelta st₂ st₃ = delta := by
        simp [traceDelta, hdelta₂]
      rw [this] at hcm
      exact hshape c hcm

theorem create_consumer_group_default_replays_witness :
    DEFAULT_START_ID = "0" ∧
    (∃ st₁, RedisStreamClient.create_consumer_group_default "task.created" "gX" wSt4 =
        (Except.ok true, st₁) ∧
      st₁.groupOf "task.created" "gX" = some ⟨0, []⟩ ∧
      (runOp (SysOp.readOp "gX" "c1" [("task.created", ">")] 10) st₁).2 =
        (wSt4.streamOf "task.created").entries.map
          (fun e => ⟨"gX", "task.created", e.id⟩)) ∧
    (∀ (sub : EventSubscriber) (st₂ : RedisState),
      ∀ c ∈ traceDelta st₂ (sub.startInit st₂).2,
        ∃ s b, c = RedisCall.xgroupCreate s sub.group "$" b) :=
  create_consumer_group_default_replays "task.created" "gX" "c1" wSt4 10
    (by decide) (by decide) (by decide) (by decide)

theorem ackCallsOf_append (g : String) (l₁ l₂ : List RedisCall) :
    ackCallsOf g (l₁ ++ l₂) = ackCallsOf g l₁ ++ ackCallsOf g l₂ := by
  induction l₁ with
  | nil => simp [ackCallsOf]
  | cons c rest ih =>
    rcases c with ⟨s, f, m⟩ | ⟨s, g₂, sid, b⟩ | ⟨gg, cc, ss, b⟩ | ⟨s, g₂, ids, b⟩
    · simp [ackCallsOf, ih]
    · simp [ackCallsOf, ih]
    · simp [ackCallsOf, ih]
    · rcases ids with _ | ⟨mid, rest₂⟩
      · simp [ackCallsOf, ih]
      · rcases rest₂ with _ | ⟨m2, rest₃⟩
        · by_cases hg : g₂ = g
          · simp [ackCallsOf, hg, ih]
          · simp [ackCallsOf, hg, ih]
        · simp [ackCallsOf, ih]

theorem ackCallsOf_mem (g : String) (l : List RedisCall) (s : String) (mid : Nat)
    (h : (s, mid) ∈ ackCallsOf g l) : ∃ b, RedisCall.xack s g [mid] b ∈ l := by
  induction l with
  | nil => simp [ackCallsOf] at h
  | cons c rest ih =>
    rcases c with ⟨s₂, f, m⟩ | ⟨s₂, g₂, sid, b⟩ | ⟨gg, cc, ss, b⟩ | ⟨s₂, g₂, ids, b⟩
    · simp only [ackCallsOf] at h
      obtain ⟨b₂, hb⟩ := ih h
      exact ⟨b₂, List.mem_cons_of_mem _ hb⟩
    · simp only [ackCallsOf] at h
      obtain ⟨b₂, hb⟩ := ih h
      exact ⟨b₂, List.mem_cons_of_mem _ hb⟩
    · simp only [ackCallsOf] at h
      obtain ⟨b₂, hb⟩ := ih h
      exact ⟨b₂, List.mem_cons_of_mem _ hb⟩
    · rcases ids with _ | ⟨mid₂, rest₂⟩
      · simp only [ackCallsOf] at h
        obtain ⟨b₂, hb⟩ := ih h
        exact ⟨b₂, List.mem_cons_of_mem _ hb⟩
      · rcases rest₂ with _ | ⟨m2, rest₃⟩
        · by_cases hg : g₂ = g
          · subst hg
            rw [show ackCallsOf g₂ (RedisCall.xack s₂ g₂ [mid₂] b :: rest) =
                (s₂, mid₂) :: ackCallsOf g₂ rest by simp [ackCallsOf]] at h
            rcases List.mem_cons.mp h with h | h
            · obtain ⟨h1, h2⟩ := Prod.mk.injEq .. ▸ h
              subst h1
              subst h2
              exact ⟨b, List.mem_cons_self _ _⟩
            · obtain ⟨b₂, hb⟩ := ih h
              exact ⟨b₂, List.mem_cons_of_mem _ hb⟩
          · rw [show ackCallsOf g (RedisCall.xack s₂ g₂ [mid₂] b :: rest) =
                ackCallsOf g rest by simp [ackCallsOf, hg]] at h
            obtain ⟨b₂, hb⟩ := ih h
            exact ⟨b₂, List.mem_cons_of_mem _ hb⟩
        · simp only [ackCallsOf] at h
          obtain ⟨b₂, hb⟩ := ih h
          exact ⟨b₂, List.mem_cons_of_mem _ hb⟩

theorem processMessage_exn (group stream : String) (h : Handler) (mid : Nat)
    (data : Fields) (st : RedisState) (e : String)
    (hh : h mid data = HandlerOutcome.exn e) :
    processMessage group stream h mid data st =
      ⟨false, st, [LogMsg.handlerError stream mid]⟩ := by
  unfold processMessage
  rw [hh]

theorem noCancel_tail (st : RedisState) (hnc : noCancel st) :
    Tick.cancel ∉ st.failSchedule.tail := by
  intro hmem
  exact hnc (List.mem_of_mem_tail hmem)

theorem noCancel_nextTick (st : RedisState) (hnc : noCancel st) :
    nextTick st ≠ Tick.cancel := by
  intro hcon
  unfold nextTick at hcon
  rcases hs : st.failSchedule with _ | ⟨t, rest⟩
  · rw [hs] at hcon
    simp at hcon
  · rw [hs] at hcon
    simp at hcon
    exact hnc (by rw [hs, hcon]; exact List.mem_cons_self _ _)

theorem processMessage_ok (group stream : String) (h : Handler) (mid : Nat)
    (data : Fields) (st : RedisState)
    (hh : h mid data = HandlerOutcome.ok) (hnc : noCancel st) :
    ∃ (b : Bool) (st₂ : RedisState),
      processMessage group stream h mid data st =
        ⟨false, st₂, if b then [] else [LogMsg.handlerError stream mid]⟩ ∧
      st₂.streams = st.streams ∧
      st₂.trace = st.trace ++ [RedisCall.xack stream group [mid] b] ∧
      noCancel st₂ ∧
      (∀ s' g' p, p ∈ pendingOf st s' g' →
        ((s', g') = (stream, group) → p.1 ≠ mid) →
        p ∈ pendingOf st₂ s' g') := by
  rcases ht : nextTick st with _ | _ | _
  · -- tick ok: the ack succeeds
    rcases hg : st.groupOf stream group with _ | gs
    · refine ⟨true, ⟨st.streams, st.groups, st.failSchedule.tail,
        st.trace ++ [RedisCall.xack stream group [mid] true]⟩, ?_, rfl, rfl, ?_, ?_⟩
      · unfold processMessage
        rw [hh, show RedisStreamClient.ack stream group [mid] st =
          Redis.xack stream group [mid] st from rfl,
          xack_ok_none stream group [mid] st ht hg]
        rfl
      · exact fun htm => hnc (List.mem_of_mem_tail htm)
      · intro s' g' p hp _
        exact hp
    · refine ⟨true, ⟨st.streams,
        aupsert (stream, group)
          ⟨gs.lastDelivered, gs.pending.filter (fun p => !([mid] : List Nat).contains p.1)⟩
          st.groups,
        st.failSchedule.tail,
        st.trace ++ [RedisCall.xack stream group [mid] true]⟩, ?_, rfl, rfl, ?_, ?_⟩
      · unfold processMessage
        rw [hh, show RedisStreamClient.ack stream group [mid] st =
          Redis.xack stream group [mid] st from rfl,
          xack_ok_some stream group [mid] st gs ht hg]
        rfl
      · exact fun htm => hnc (List.mem_of_mem_tail htm)
      · intro s' g' p hp hcond
        by_cases hks : ((s', g') : String × String) = (stream, group)
        · obtain ⟨hk1, hk2⟩ := Prod.mk.injEq .. ▸ hks
          subst hk1
          subst hk2
          have hne := hcond rfl
          have hg₂ : alookup ((s' : String), (g' : String)) st.groups = some gs := hg
          simp only [pendingOf, RedisState.groupOf, hg₂] at hp
          simp [pendingOf, RedisState.groupOf, alookup_aupsert_self, List.mem_filter]
          exact ⟨hp, hne⟩
        · simp only [pendingOf, RedisState.groupOf] at hp ⊢
          rw [alookup_aupsert_ne (s', g') (stream, group) _ _ hks]
          exact hp
  · -- tick connFail: the ack raises and is caught
    refine ⟨false, ⟨st.streams, st.groups, st.failSchedule.tail,
      st.trace ++ [RedisCall.xack stream group [mid] false]⟩, ?_, rfl, rfl, ?_, ?_⟩
    · unfold processMessage
      rw [hh, show RedisStreamClient.ack stream group [mid] st =
        Redis.xack stream group [mid] st from rfl,
        xack_fail stream group [mid] st Tick.connFail ht (by simp)]
      rfl
    · exact fun htm => hnc (List.mem_of_mem_tail htm)
    · intro s' g' p hp _
      exact hp
  · exact absurd ht (noCancel_nextTick st hnc)

theorem processEntries_spec (group stream : String) (h : Handler) :
    ∀ msgs st, noCancel st →
      ∃ delta,
        (processEntries group stream h msgs st).cancelled = false ∧
        noCancel (processEntries group stream h msgs st).st ∧
        (processEntries group stream h msgs st).st.streams = st.streams ∧
        (processEntries group stream h msgs st).st.trace = st.trace ++ delta ∧
        ackCallsOf group delta =
          (msgs.filter (fun m => decide (h m.1 m.2 = HandlerOutcome.ok))).map
            (fun m => ((stream : String), m.1)) ∧
        (∀ c ∈ delta, ∃ mid b, c = RedisCall.xack stream group [mid] b) ∧
        (∀ mid data e, (mid, data) ∈ msgs → h mid data = HandlerOutcome.exn e →
          LogMsg.handlerError stream mid ∈ (processEntries group stream h msgs st).logs) ∧
        (∀ s' g' p, p ∈ pendingOf st s' g' →
          ((s', g') = (stream, group) →
            p.1 ∉ (msgs.filter (fun m => decide (h m.1 m.2 = HandlerOutcome.ok))).map
              (fun m => m.1)) →
          p ∈ pendingOf (processEntries group stream h msgs st).st s' g') := by
  intro msgs
  induction msgs with
  | nil =>
    intro st hnc
    refine ⟨[], rfl, hnc, rfl, by simp [processEntries], by simp [ackCallsOf], ?_, ?_, ?_⟩
    · intro c hc
      simp at hc
    · intro mid data e hm
      simp at hm
    · intro s' g' p hp _
      exact hp
  | cons m rest ih =>
    intro st hnc
    rcases m with ⟨mid, data⟩
    rcases hh : h mid data with _ | e
    · -- handler succeeds: ack attempted
      obtain ⟨b, st₂, hpm, hstr, htr, hnc₂, hpend⟩ :=
        processMessage_ok group stream h mid data st hh hnc
      obtain ⟨delta₂, ihc, ihnc, ihstr, ihtr, ihack, ihshape, ihlog, ihpend⟩ := ih st₂ hnc₂
      have hfc : ((mid, data) :: rest).filter
            (fun m => decide (h m.1 m.2 = HandlerOutcome.ok)) =
          (mid, data) :: rest.filter (fun m => decide (h m.1 m.2 = HandlerOutcome.ok)) := by
        simp [List.filter_cons, hh]
      have heq : processEntries group stream h ((mid, data) :: rest) st =
          ⟨(processEntries group stream h rest st₂).cancelled,
           (processEntries group stream h rest st₂).st,
           (if b then [] else [LogMsg.handlerError stream mid]) ++
             (processEntries group stream h rest st₂).logs⟩ := by
        conv_lhs => rw [processEntries]
        rw [hpm]
        rfl
      refine ⟨RedisCall.xack stream group [mid] b :: delta₂, ?_, ?_, ?_, ?_, ?_, ?_, ?_, ?_⟩
      · rw [heq]
        exact ihc
      · rw [heq]
        exact ihnc
      · rw [heq, ihstr, hstr]
      · rw [heq]
        simp only []
        rw [ihtr, htr]
        simp
      · rw [show (RedisCall.xack stream group [mid] b :: delta₂ : List RedisCall) =
          [RedisCall.xack stream group [mid] b] ++ delta₂ from rfl, ackCallsOf_append]
        have h1 : ackCallsOf group [RedisCall.xack stream group [mid] b] =
            [((stream : String), mid)] := by
          simp [ackCallsOf]
        rw [h1, ihack, hfc]
        simp
      · intro c hc
        rcases List.mem_cons.mp hc with hc | hc
        · exact ⟨mid, b, hc⟩
        · exact ihshape c hc
      · intro mid₂ data₂ e₂ hm₂ hh₂
        rw [heq]
        rcases List.mem_cons.mp hm₂ with hm₂ | hm₂
        · obtain ⟨h1, h2⟩ := Prod.mk.injEq .. ▸ hm₂
          subst h1
          subst h2
          rw [hh] at hh₂
          cases hh₂
        · simp only [List.mem_append]
          right
          exact ihlog mid₂ data₂ e₂ hm₂ hh₂
      · intro s' g' p hp hcond
        rw [heq]
        have hcond₁ : ((s', g') : String × String) = (stream, group) → p.1 ≠ mid := by
          intro hk hcon
          apply hcond hk
          rw [hfc]
          simp [hcon]
        have hp₂ := hpend s' g' p hp hcond₁
        refine ihpend s' g' p hp₂ ?_
        intro hk hcon
        apply hcond hk
        rw [hfc]
        simp only [List.map_cons, List.mem_cons]
        exact Or.inr hcon
    · -- handler raises: no ack, state untouched, error logged
      have hpm := processMessage_exn group stream h mid data st e hh
      obtain ⟨delta₂, ihc, ihnc, ihstr, ihtr, ihack, ihshape, ihlog, ihpend⟩ := ih st hnc
      have hfc : ((mid, data) :: rest).filter
            (fun m => decide (h m.1 m.2 = HandlerOutcome.ok)) =
          rest.filter (fun m => decide (h m.1 m.2 = HandlerOutcome.ok)) := by
        simp [List.filter_cons, hh]
      have heq : processEntries group stream h ((mid, data) :: rest) st =
          ⟨(processEntries group stream h rest st).cancelled,
           (processEntries group stream h rest st).st,
           [LogMsg.handlerError stream mid] ++ (processEntries group stream h rest st).logs⟩ := by
        conv_lhs => rw [processEntries]
        rw [hpm]
        rfl
      refine ⟨delta₂, ?_, ?_, ?_, ?_, ?_, ?_, ?_, ?_⟩
      · rw [heq]
        exact ihc
      · rw [heq]
        exact ihnc
      · rw [heq, ihstr]
      · rw [heq]
        simp only []
        exact ihtr
      · rw [ihack, hfc]
      · exact ihshape
      · intro mid₂ data₂ e₂ hm₂ hh₂
        rw [heq]
        rcases List.mem_cons.mp hm₂ with hm₂ | hm₂
        · obtain ⟨h1, h2⟩ := Prod.mk.injEq .. ▸ hm₂
          subst h1
          subst h2
          simp
        · simp only [List.mem_append]
          right
          exact ihlog mid₂ data₂ e₂ hm₂ hh₂
      · intro s' g' p hp hcond
        rw [heq]
        refine ihpend s' g' p hp ?_
        intro hk
        have := hcond hk
        rw [hfc] at this
        exact this

theorem mem_ackCallsOf (g : String) :
    ∀ (l : List RedisCall) (s : String) (mid : Nat) (b : Bool),
      RedisCall.xack s g [mid] b ∈ l → ((s : String), mid) ∈ ackCallsOf g l := by
  intro l
  induction l with
  | nil =>
    intro s mid b h
    simp at h
  | cons c rest ih =>
    intro s mid b h
    rcases List.mem_cons.mp h with h | h
    · rw [← h]
      simp [ackCallsOf]
    · have hmem := ih s mid b h
      rcases c with ⟨s₂, f, m⟩ | ⟨s₂, g₂, sid, b₂⟩ | ⟨gg, cc, ss, b₂⟩ | ⟨s₂, g₂, ids, b₂⟩
      · simpa [ackCallsOf] using hmem
      · simpa [ackCallsOf] using hmem
      · simpa [ackCallsOf] using hmem
      · rcases ids with _ | ⟨mid₂, rest₂⟩
        · simpa [ackCallsOf] using hmem
        · rcases rest₂ with _ | ⟨m2, rest₃⟩
          · by_cases hg : g₂ = g
            · rw [show ackCallsOf g (RedisCall.xack s₂ g₂ [mid₂] b₂ :: rest) =
                  (s₂, mid₂) :: ackCallsOf g rest by simp [ackCallsOf, hg]]
              exact List.mem_cons_of_mem _ hmem
            · rw [show ackCallsOf g (RedisCall.xack s₂ g₂ [mid₂] b₂ :: rest) =
                  ackCallsOf g rest by simp [ackCallsOf, hg]]
              exact hmem
          · simpa [ackCallsOf] using hmem

theorem processBatch_spec (sub : EventSubscriber) :
    ∀ batch st, noCancel st →
      ∃ delta,
        (processBatch sub batch st).cancelled = false ∧
        noCancel (processBatch sub batch st).st ∧
        (processBatch sub batch st).st.streams = st.streams ∧
        (processBatch sub batch st).st.trace = st.trace ++ delta ∧
        ackCallsOf sub.group delta = successAcks sub.handlers batch ∧
        (∀ s msgs hdl mid data e, ((s : String), msgs) ∈ batch →
          alookup s sub.handlers = some hdl → (mid, data) ∈ msgs →
          hdl mid data = HandlerOutcome.exn e →
          LogMsg.handlerError s mid ∈ (processBatch sub batch st).logs) ∧
        (∀ s' g' p, p ∈ pendingOf st s' g' →
          (g' = sub.group → ((s' : String), p.1) ∉ successAcks sub.handlers batch) →
          p ∈ pendingOf (processBatch sub batch st).st s' g') := by
  intro batch
  induction batch with
  | nil =>
    intro st hnc
    refine ⟨[], rfl, hnc, rfl, by simp [processBatch],
      by simp [ackCallsOf, successAcks], ?_, ?_⟩
    · intro s msgs hdl mid data e hb
      simp at hb
    · intro s' g' p hp _
      exact hp
  | cons pr rest ih =>
    intro st hnc
    rcases pr with ⟨s, msgs⟩
    rcases hl : alookup s sub.handlers with _ | hdl
    · have heq : processBatch sub ((s, msgs) :: rest) st = processBatch sub rest st := by
        conv_lhs => rw [processBatch]
        rw [hl]
      obtain ⟨delta₂, ihc, ihnc, ihstr, ihtr, ihack, ihlog, ihpend⟩ := ih st hnc
      have hsa : successAcks sub.handlers ((s, msgs) :: rest) =
          successAcks sub.handlers rest := by
        simp [successAcks, hl]
      refine ⟨delta₂, by rw [heq]; exact ihc, by rw [heq]; exact ihnc,
        by rw [heq]; exact ihstr, by rw [heq]; exact ihtr,
        by rw [ihack, hsa], ?_, ?_⟩
      · intro s₂ msgs₂ hdl₂ mid data e hb hl₂ hm hh
        rcases List.mem_cons.mp hb with hb | hb
        · obtain ⟨h1, h2⟩ := Prod.mk.injEq .. ▸ hb
          subst h1
          rw [hl₂] at hl
          cases hl
        · rw [heq]
          exact ihlog s₂ msgs₂ hdl₂ mid data e hb hl₂ hm hh
      · intro s' g' p hp hcond
        rw [heq]
        refine ihpend s' g' p hp ?_
        intro hgg
        have := hcond hgg
        rw [hsa] at this
        exact this
    · obtain ⟨delta₁, h1c, h1nc, h1str, h1tr, h1ack, h1shape, h1log, h1pend⟩ :=
        processEntries_spec sub.group s hdl msgs st hnc
      obtain ⟨delta₂, ihc, ihnc, ihstr, ihtr, ihack, ihlog, ihpend⟩ :=
        ih (processEntries sub.group s hdl msgs st).st h1nc
      have heq : processBatch sub ((s, msgs) :: rest) st =
          ⟨(processBatch sub rest (processEntries sub.group s hdl msgs st).st).cancelled,
           (processBatch sub rest (processEntries sub.group s hdl msgs st).st).st,
           (processEntries sub.group s hdl msgs st).logs ++
             (processBatch sub rest (processEntries sub.group s hdl msgs st).st).logs⟩ := by
        conv_lhs => rw [processBatch]
        rw [hl]
        simp only [h1c, Bool.false_eq_true, if_false]
      have hsa : successAcks sub.handlers ((s, msgs) :: rest) =
          (msgs.filter (fun m => decide (hdl m.1 m.2 = HandlerOutcome.ok))).map
            (fun m => ((s : String), m.1)) ++ successAcks sub.handlers rest := by
        simp [successAcks, hl]
      refine ⟨delta₁ ++ delta₂, ?_, ?_, ?_, ?_, ?_, ?_, ?_⟩
      · rw [heq]
        exact ihc
      · rw [heq]
        exact ihnc
      · rw [heq, ihstr, h1str]
      · rw [heq]
        simp only []
        rw [ihtr, h1tr]
        simp
      · rw [ackCallsOf_append, h1ack, ihack, hsa]
      · intro s₂ msgs₂ hdl₂ mid data e hb hl₂ hm hh
        rw [heq]
        simp only [List.mem_append]
        rcases List.mem_cons.mp hb with hb | hb
        · obtain ⟨h1, h2⟩ := Prod.mk.injEq .. ▸ hb
          subst h1
          subst h2
          rw [hl₂] at hl
          have hdl₂eq : hdl₂ = hdl := Option.some.inj hl
          subst hdl₂eq
          left
          exact h1log mid data e hm hh
        · right
          exact ihlog s₂ msgs₂ hdl₂ mid data e hb hl₂ hm hh
      · intro s' g' p hp hcond
        rw [heq]
        have hcond₁ : ((s', g') : String × String) = (s, sub.group) →
            p.1 ∉ (msgs.filter (fun m => decide (hdl m.1 m.2 = HandlerOutcome.ok))).map
              (fun m => m.1) := by
          intro hk hcon
          obtain ⟨hk1, hk2⟩ := Prod.mk.injEq .. ▸ hk
          apply hcond hk2
          rw [hsa]
          simp only [List.mem_append]
          left
          simp only [List.mem_map] at hcon ⊢
          obtain ⟨m, hm, hmeq⟩ := hcon
          exact ⟨m, hm, by rw [hmeq, hk1]⟩
        have hp₂ := h1pend s' g' p hp hcond₁
        refine ihpend s' g' p hp₂ ?_
        intro hgg
        have := hcond hgg
        rw [hsa] at this
        intro hcon
        exact this (by simp only [List.mem_append]; right; exact hcon)

theorem successAcks_intro (handlers : List (String × Handler)) :
    ∀ batch (s : String) msgs (hdl : Handler) (mid : Nat) (data : Fields),
      ((s : String), msgs) ∈ batch → alookup s handlers = some hdl →
      (mid, data) ∈ msgs → hdl mid data = HandlerOutcome.ok →
      ((s : String), mid) ∈ successAcks handlers batch := by
  intro batch
  induction batch with
  | nil =>
    intro s msgs hdl mid data hb
    simp at hb
  | cons pr rest ih =>
    intro s msgs hdl mid data hb hl hm hh
    rcases pr with ⟨s₂, msgs₂⟩
    rcases List.mem_cons.mp hb with hb | hb
    · obtain ⟨h1, h2⟩ := Prod.mk.injEq .. ▸ hb
      subst h1
      subst h2
      rw [show successAcks handlers ((s, msgs) :: rest) =
          (msgs.filter (fun m => decide (hdl m.1 m.2 = HandlerOutcome.ok))).map
            (fun m => ((s : String), m.1)) ++ successAcks handlers rest from by
        simp [successAcks, hl]]
      simp only [List.mem_append]
      left
      simp only [List.mem_map]
      exact ⟨(mid, data), by simp [List.mem_filter, hm, hh], rfl⟩
    · rcases hl₂ : alookup s₂ handlers with _ | hdl₂
      · rw [show successAcks handlers ((s₂, msgs₂) :: rest) =
            successAcks handlers rest from by simp [successAcks, hl₂]]
        exact ih s msgs hdl mid data hb hl hm hh
      · rw [show successAcks handlers ((s₂, msgs₂) :: rest) =
            (msgs₂.filter (fun m => decide (hdl₂ m.1 m.2 = HandlerOutcome.ok))).map
              (fun m => ((s₂ : String), m.1)) ++ successAcks handlers rest from by
          simp [successAcks, hl₂]]
        simp only [List.mem_append]
        right
        exact ih s msgs hdl mid data hb hl hm hh

theorem successAcks_elim (handlers : List (String × Handler)) :
    ∀ batch (s : String) (mid : Nat),
      ((s : String), mid) ∈ successAcks handlers batch →
      ∃ msgs hdl data, ((s : String), msgs) ∈ batch ∧
        alookup s handlers = some hdl ∧
        (mid, data) ∈ msgs ∧ hdl mid data = HandlerOutcome.ok := by
  intro batch
  induction batch with
  | nil =>
    intro s mid h
    simp [successAcks] at h
  | cons pr rest ih =>
    intro s mid h
    rcases pr with ⟨s₂, msgs₂⟩
    rcases hl₂ : alookup s₂ handlers with _ | hdl₂
    · rw [show successAcks handlers ((s₂, msgs₂) :: rest) =
          successAcks handlers rest from by simp [successAcks, hl₂]] at h
      obtain ⟨msgs, hdl, data, hb, hl, hm, hh⟩ := ih s mid h
      exact ⟨msgs, hdl, data, List.mem_cons_of_mem _ hb, hl, hm, hh⟩
    · rw [show successAcks handlers ((s₂, msgs₂) :: rest) =
          (msgs₂.filter (fun m => decide (hdl₂ m.1 m.2 = HandlerOutcome.ok))).map
            (fun m => ((s₂ : String), m.1)) ++ successAcks handlers rest from by
        simp [successAcks, hl₂]] at h
      rcases List.mem_append.mp h with h | h
      · simp only [List.mem_map] at h
        obtain ⟨m, hmf, hmeq⟩ := h
        obtain ⟨hs, hmid⟩ := Prod.mk.injEq .. ▸ hmeq
        rcases m with ⟨mid₃, data₃⟩
        simp only [List.mem_filter, decide_eq_true_eq] at hmf
        subst hs
        refine ⟨msgs₂, hdl₂, data₃, List.mem_cons_self _ _, hl₂, ?_, ?_⟩
        · simpa [← hmid] using hmf.1
        · simpa [← hmid] using hmf.2
      · obtain ⟨msgs, hdl, data, hb, hl, hm, hh⟩ := ih s mid h
        exact ⟨msgs, hdl, data, List.mem_cons_of_mem _ hb, hl, hm, hh⟩

theorem nodup_key_unique {α β : Type} [DecidableEq α] :
    ∀ l : List (α × β), (l.map Prod.fst).Nodup →
      ∀ (a : α) (b₁ b₂ : β), (a, b₁) ∈ l → (a, b₂) ∈ l → b₁ = b₂ := by
  intro l
  induction l with
  | nil =>
    intro _ a b₁ b₂ h1
    simp at h1
  | cons p rest ih =>
    intro hnd a b₁ b₂ h1 h2
    rw [List.map_cons] at hnd
    have hnd₂ := List.nodup_cons.mp hnd
    rcases List.mem_cons.mp h1 with h1 | h1 <;> rcases List.mem_cons.mp h2 with h2 | h2
    · rw [← h2] at h1
      exact (Prod.mk.injEq .. ▸ h1).2
    · exfalso
      apply hnd₂.1
      rw [show p.1 = a from by rw [← h1]]
      exact List.mem_map.mpr ⟨(a, b₂), h2, rfl⟩
    · exfalso
      apply hnd₂.1
      rw [show p.1 = a from by rw [← h2]]
      exact List.mem_map.mpr ⟨(a, b₁), h1, rfl⟩
    · exact ih hnd₂.2 a b₁ b₂ h1 h2

theorem deliverNew_pending_mono (ss : StreamState) (gs : GroupState)
    (consumer : String) (count : Nat) :
    ∀ p ∈ gs.pending, p ∈ (deliverNew ss gs consumer count).2.pending := by
  intro p hp
  unfold deliverNew
  exact List.mem_append.mpr (Or.inl hp)

theorem deliverNew_delivered_pending (ss : StreamState) (gs : GroupState)
    (consumer : String) (count : Nat) :
    ∀ m ∈ (deliverNew ss gs consumer count).1,
      ((m.1 : Nat), consumer) ∈ (deliverNew ss gs consumer count).2.pending := by
  intro m hm
  unfold deliverNew at hm ⊢
  simp only [List.mem_map] at hm
  obtain ⟨e, he, hme⟩ := hm
  apply List.mem_append.mpr
  right
  exact List.mem_map.mpr ⟨e, he, by rw [← hme]⟩

theorem readStreams_fields (group consumer : String) (count : Nat) :
    ∀ streams st,
      (Redis.readStreams group consumer count streams st).2.failSchedule =
        st.failSchedule ∧
      (Redis.readStreams group consumer count streams st).2.streams = st.streams ∧
      (Redis.readStreams group consumer count streams st).2.trace = st.trace := by
  intro streams
  induction streams with
  | nil =>
    intro st
    exact ⟨rfl, rfl, rfl⟩
  | cons sc rest ih =>
    intro st
    rcases sc with ⟨s₂, cur⟩
    rcases hg : st.groupOf s₂ group with _ | gs
    · have heq : Redis.readStreams group consumer count ((s₂, cur) :: rest) st =
          Redis.readStreams group consumer count rest st := by
        conv_lhs => rw [Redis.readStreams]
        rw [hg]
      rw [heq]
      exact ih st
    · by_cases hcur : cur = ">"
      · subst hcur
        rcases hd : deliverNew (st.streamOf s₂) gs consumer count with ⟨msgs, gs₂⟩
        rcases hr : Redis.readStreams group consumer count rest
            { st with groups := aupsert (s₂, group) gs₂ st.groups } with ⟨restRes, st₃⟩
        have heq : Redis.readStreams group consumer count ((s₂, ">") :: rest) st =
            ((if msgs.isEmpty then restRes else (s₂, msgs) :: restRes), st₃) := by
          conv_lhs => rw [Redis.readStreams]
          simp [hg, hd, hr]
        rw [heq]
        have := ih { st with groups := aupsert (s₂, group) gs₂ st.groups }
        rw [hr] at this
        exact this
      · rcases hr : Redis.readStreams group consumer count rest st with ⟨restRes, st₃⟩
        have heq : Redis.readStreams group consumer count ((s₂, cur) :: rest) st =
            ((if (deliverPending (st.streamOf s₂) gs consumer
                  (parseStartId cur) count).isEmpty
              then restRes
              else (s₂, deliverPending (st.streamOf s₂) gs consumer
                  (parseStartId cur) count) :: restRes), st₃) := by
          conv_lhs => rw [Redis.readStreams]
          simp [hg, hcur, hr]
        rw [heq]
        have := ih st
        rw [hr] at this
        exact this

theorem readStreams_pending_mono (group consumer : String) (count : Nat) :
    ∀ streams st (s' : String) p, p ∈ pendingOf st s' group →
      p ∈ pendingOf (Redis.readStreams group consumer count streams st).2 s' group := by
  intro streams
  induction streams with
  | nil =>
    intro st s' p hp
    exact hp
  | cons sc rest ih =>
    intro st s' p hp
    rcases sc with ⟨s₂, cur⟩
    rcases hg : st.groupOf s₂ group with _ | gs
    · have heq : Redis.readStreams group consumer count ((s₂, cur) :: rest) st =
          Redis.readStreams group consumer count rest st := by
        conv_lhs => rw [Redis.readStreams]
        rw [hg]
      rw [heq]
      exact ih st s' p hp
    · by_cases hcur : cur = ">"
      · subst hcur
        rcases hd : deliverNew (st.streamOf s₂) gs consumer count with ⟨msgs, gs₂⟩
        rcases hr : Redis.readStreams group consumer count rest
            { st with groups := aupsert (s₂, group) gs₂ st.groups } with ⟨restRes, st₃⟩
        have heq : Redis.readStreams group consumer count ((s₂, ">") :: rest) st =
            ((if msgs.isEmpty then restRes else (s₂, msgs) :: restRes), st₃) := by
          conv_lhs => rw [Redis.readStreams]
          simp [hg, hd, hr]
        rw [heq]
        have hp₂ : p ∈ pendingOf
            { st with groups := aupsert (s₂, group) gs₂ st.groups } s' group := by
          by_cases hss : s' = s₂
          · subst hss
            have hg₂ : alookup ((s' : String), (group : String)) st.groups = some gs := hg
            simp only [pendingOf, RedisState.groupOf, hg₂, Option.map_some,
              Option.getD_some] at hp
            simp only [pendingOf, RedisState.groupOf, alookup_aupsert_self,
              Option.map_some, Option.getD_some]
            have hmono := deliverNew_pending_mono (st.streamOf s') gs consumer count p hp
            rw [hd] at hmono
            exact hmono
          · simp only [pendingOf, RedisState.groupOf] at hp ⊢
            rw [alookup_aupsert_ne (s', group) (s₂, group) _ _
              (by intro hcon; exact hss (Prod.mk.injEq .. ▸ hcon).1)]
            exact hp
        have := ih { st with groups := aupsert (s₂, group) gs₂ st.groups } s' p hp₂
        rw [hr] at this
        exact this
      · rcases hr : Redis.readStreams group consumer count rest st with ⟨restRes, st₃⟩
        have heq : Redis.readStreams group consumer count ((s₂, cur) :: rest) st =
            ((if (deliverPending (st.streamOf s₂) gs consumer
                  (parseStartId cur) count).isEmpty
              then restRes
              else (s₂, deliverPending (st.streamOf s₂) gs consumer
                  (parseStartId cur) count) :: restRes), st₃) := by
          conv_lhs => rw [Redis.readStreams]
          simp [hg, hcur, hr]
        rw [heq]
        have := ih st s' p hp
        rw [hr] at this
        exact this

theorem deliverPending_mem_pending (ss : StreamState) (gs : GroupState)
    (consumer : String) (cursor count : Nat) :
    ∀ m ∈ deliverPending ss gs consumer cursor count,
      ((m.1 : Nat), (consumer : String)) ∈ gs.pending := by
  intro m hm
  unfold deliverPending at hm
  simp only [List.mem_map] at hm
  obtain ⟨e, he, hme⟩ := hm
  have h2 := List.of_mem_filter (List.mem_of_mem_take he)
  simp only [Bool.and_eq_true, decide_eq_true_eq] at h2
  rw [← hme]
  exact h2.2

theorem readStreams_pending_deliver (group consumer : String) (count : Nat) :
    ∀ streams st pr, pr ∈ (Redis.readStreams group consumer count streams st).1 →
      ∀ m, m ∈ pr.2 →
      ((m.1 : Nat), (consumer : String)) ∈
        pendingOf (Redis.readStreams group consumer count streams st).2 pr.1 group := by
  intro streams
  induction streams with
  | nil =>
    intro st pr hpr
    simp [Redis.readStreams] at hpr
  | cons sc rest ih =>
    intro st pr hpr m hm
    rcases sc with ⟨s₂, cur⟩
    rcases hg : st.groupOf s₂ group with _ | gs
    · have heq : Redis.readStreams group consumer count ((s₂, cur) :: rest) st =
          Redis.readStreams group consumer count rest st := by
        conv_lhs => rw [Redis.readStreams]
        rw [hg]
      rw [heq] at hpr ⊢
      exact ih st pr hpr m hm
    · by_cases hcur : cur = ">"
      · subst hcur
        rcases hd : deliverNew (st.streamOf s₂) gs consumer count with ⟨msgs, gs₂⟩
        rcases hr : Redis.readStreams group consumer count rest
            { st with groups := aupsert (s₂, group) gs₂ st.groups } with ⟨restRes, st₃⟩
        have heq : Redis.readStreams group consumer count ((s₂, ">") :: rest) st =
            ((if msgs.isEmpty then restRes else (s₂, msgs) :: restRes), st₃) := by
          conv_lhs => rw [Redis.readStreams]
          simp [hg, hd, hr]
        rw [heq] at hpr ⊢
        have hrest : pr ∈ restRes →
            ((m.1 : Nat), (consumer : String)) ∈ pendingOf st₃ pr.1 group := by
          intro hpr₂
          have hmem := ih { st with groups := aupsert (s₂, group) gs₂ st.groups } pr
            (by rw [hr]; exact hpr₂) m hm
          rw [hr] at hmem
          exact hmem
        by_cases he : msgs.isEmpty
        · rw [if_pos he] at hpr
          exact hrest hpr
        · rw [if_neg he] at hpr
          rcases List.mem_cons.mp hpr with hpr | hpr
          · subst hpr
            have hmp : ((m.1 : Nat), (consumer : String)) ∈ gs₂.pending := by
              have hdp := deliverNew_delivered_pending (st.streamOf s₂) gs consumer count m
                (by rw [hd]; exact hm)
              rw [hd] at hdp
              exact hdp
            have hmem₂ : ((m.1 : Nat), (consumer : String)) ∈ pendingOf
                { st with groups := aupsert ((s₂ : String), (group : String)) gs₂ st.groups }
                s₂ group := by
              simp only [pendingOf, RedisState.groupOf, alookup_aupsert_self,
                Option.map_some, Option.getD_some]
              exact hmp
            have hmem₃ := readStreams_pending_mono group consumer count rest
              { st with groups := aupsert (s₂, group) gs₂ st.groups } s₂ _ hmem₂
            rw [hr] at hmem₃
            exact hmem₃
          · exact hrest hpr
      · rcases hr : Redis.readStreams group consumer count rest st with ⟨restRes, st₃⟩
        have heq : Redis.readStreams group consumer count ((s₂, cur) :: rest) st =
            ((if (deliverPending (st.streamOf s₂) gs consumer
                  (parseStartId cur) count).isEmpty
              then restRes
              else (s₂, deliverPending (st.streamOf s₂) gs consumer
                  (parseStartId cur) count) :: restRes), st₃) := by
          conv_lhs => rw [Redis.readStreams]
          simp [hg, hcur, hr]
        rw [heq] at hpr ⊢
        have hrest : pr ∈ restRes →
            ((m.1 : Nat), (consumer : String)) ∈ pendingOf st₃ pr.1 group := by
          intro hpr₂
          have hmem := ih st pr (by rw [hr]; exact hpr₂) m hm
          rw [hr] at hmem
          exact hmem
        by_cases he : (deliverPending (st.streamOf s₂) gs consumer
            (parseStartId cur) count).isEmpty
        · rw [if_pos he] at hpr
          exact hrest hpr
        · rw [if_neg he] at hpr
          rcases List.mem_cons.mp hpr with hpr | hpr
          · subst hpr
            have hmp := deliverPending_mem_pending (st.streamOf s₂) gs consumer
              (parseStartId cur) count m hm
            have hmem₂ : ((m.1 : Nat), (consumer : String)) ∈ pendingOf st s₂ group := by
              have hg₂ : alookup ((s₂ : String), (group : String)) st.groups = some gs := hg
              simp only [pendingOf, RedisState.groupOf, hg₂, Option.map_some,
                Option.getD_some]
              exact hmp
            have hmem₃ := readStreams_pending_mono group consumer count rest st s₂ _ hmem₂
            rw [hr] at hmem₃
            exact hmem₃
          · exact hrest hpr

theorem readCall_ok_spec (sub : EventSubscriber) (st : RedisState)
    (batch : List (String × List (Nat × Fields))) (st₁ : RedisState)
    (hread : readCall sub st = (Except.ok batch, st₁)) :
    st₁.failSchedule = st.failSchedule.tail ∧
    (∀ pr, pr ∈ batch → ∀ m, m ∈ pr.2 →
      ((m.1 : Nat), sub.consumer) ∈ pendingOf st₁ pr.1 sub.group) := by
  unfold readCall RedisStreamClient.read_group Redis.xreadgroup at hread
  rw [tick_eq] at hread
  rcases ht : nextTick st with _ | _ | _ <;> rw [ht] at hread
  · simp only [] at hread
    by_cases hng : (sub.handlers.map (fun p => (p.1, ">"))).any
        (fun sc => ((tickState st).groupOf sc.1 sub.group).isNone)
    · rw [if_pos hng] at hread
      simp at hread
    · rw [if_neg hng] at hread
      rcases hrs : Redis.readStreams sub.group sub.consumer 10
          (sub.handlers.map (fun p => (p.1, ">"))) (tickState st) with ⟨res, st₂⟩
      rw [hrs] at hread
      simp only [] at hread
      obtain ⟨h1, h2⟩ := Prod.mk.injEq .. ▸ hread
      have hres : res = batch := Except.ok.inj h1
      subst hres
      subst h2
      constructor
      · have hf := readStreams_fields sub.group sub.consumer 10
          (sub.handlers.map (fun p => (p.1, ">"))) (tickState st)
        rw [hrs] at hf
        exact hf.1
      · intro pr hpr m hm
        have hmem := readStreams_pending_deliver sub.group sub.consumer 10
          (sub.handlers.map (fun p => (p.1, ">"))) (tickState st) pr
          (by rw [hrs]; exact hpr) m hm
        rw [hrs] at hmem
        exact hmem
  · simp at hread
  · simp at hread

/-- C1: In one iteration of the consume loop, for every message delivered by
the `read_group` call, the subscriber issues an `ack` call naming the
message's stream, the group and the message id if and only if the handler
registered for that stream returned without raising; when the handler
raises, the message is not acknowledged and remains in the group's pending
set, the error is logged with the stream name and message id, and the
iteration still ends in `cont` — the loop proceeds and the handler's
exception never propagates out of the consume loop of `start()`. -/
theorem loop_ack_iff_handler_success (sub : EventSubscriber) (st : RedisState)
    (batch : List (String × List (Nat × Fields))) (st₁ : RedisState)
    (hread : readCall sub st = (Except.ok batch, st₁))
    (hnc : noCancel st)
    (hbs : (batch.map Prod.fst).Nodup)
    (hbm : ∀ pr ∈ batch, (pr.2.map Prod.fst).Nodup) :
    (loopIter sub st).1 = IterOutcome.cont ∧
    ∀ (s : String) msgs, ((s : String), msgs) ∈ batch →
      ∀ hdl, alookup s sub.handlers = some hdl →
      ∀ (mid : Nat) (data : Fields), (mid, data) ∈ msgs →
        ((hdl mid data = HandlerOutcome.ok →
            ∃ b, RedisCall.xack s sub.group [mid] b ∈
              traceDelta st₁ (loopIter sub st).2.1) ∧
         (∀ e, hdl mid data = HandlerOutcome.exn e →
            (¬ ∃ b, RedisCall.xack s sub.group [mid] b ∈
                traceDelta st₁ (loopIter sub st).2.1) ∧
            LogMsg.handlerError s mid ∈ (loopIter sub st).2.2 ∧
            ((mid : Nat), sub.consumer) ∈
              pendingOf (loopIter sub st).2.1 s sub.group)) := by
  have hsched := (readCall_ok_spec sub st batch st₁ hread).1
  have hpend := (readCall_ok_spec sub st batch st₁ hread).2
  have hnc₁ : noCancel st₁ := by
    unfold noCancel
    rw [hsched]
    exact noCancel_tail st hnc
  obtain ⟨delta, hcan, hncB, hstr, htr, hacks, hlogsB, hpres⟩ :=
    processBatch_spec sub batch st₁ hnc₁
  have hloop : loopIter sub st =
      (IterOutcome.cont, (processBatch sub batch st₁).st,
        (processBatch sub batch st₁).logs) := by
    unfold loopIter
    rw [hread]
    simp only [hcan, Bool.false_eq_true, if_false]
  have hfst : (loopIter sub st).1 = IterOutcome.cont := by
    rw [hloop]
  have hst2 : (loopIter sub st).2.1 = (processBatch sub batch st₁).st := by
    rw [hloop]
  have hlogs2 : (loopIter sub st).2.2 = (processBatch sub batch st₁).logs := by
    rw [hloop]
  have hdelta : traceDelta st₁ (loopIter sub st).2.1 = delta := by
    rw [hst2]
    unfold traceDelta
    rw [htr]
    exact List.drop_left st₁.trace delta
  refine ⟨hfst, ?_⟩
  intro s msgs hbmem hdl hlk mid data hmmem
  constructor
  · intro hok
    have hsa : ((s : String), mid) ∈ successAcks sub.handlers batch :=
      successAcks_intro sub.handlers batch s msgs hdl mid data hbmem hlk hmmem hok
    rw [← hacks] at hsa
    rw [hdelta]
    exact ackCallsOf_mem sub.group delta s mid hsa
  · intro e hexn
    have hnot : ((s : String), mid) ∉ successAcks sub.handlers batch := by
      intro hsa
      obtain ⟨msgs₂, hdl₂, data₂, hb₂, hl₂, hm₂, hh₂⟩ :=
        successAcks_elim sub.handlers batch s mid hsa
      have hmeq : msgs₂ = msgs := nodup_key_unique batch hbs s msgs₂ msgs hb₂ hbmem
      rw [hmeq] at hm₂
      have hdeq : hdl₂ = hdl := Option.some.inj (hl₂.symm.trans hlk)
      rw [hdeq] at hh₂
      have hdata : data₂ = data :=
        nodup_key_unique msgs (hbm (s, msgs) hbmem) mid data₂ data hm₂ hmmem
      rw [hdata] at hh₂
      rw [hexn] at hh₂
      exact HandlerOutcome.noConfusion hh₂
    refine ⟨?_, ?_, ?_⟩
    · rw [hdelta]
      rintro ⟨b, hb⟩
      exact hnot (hacks ▸ mem_ackCallsOf sub.group delta s mid b hb)
    · rw [hlogs2]
      exact hlogsB s msgs hdl mid data e hbmem hlk hmmem hexn
    · rw [hst2]
      exact hpres s sub.group (mid, sub.consumer)
        (hpend (s, msgs) hbmem (mid, data) hmmem)
        (fun _ => hnot)

theorem loop_ack_iff_handler_success_witness :
    (loopIter wSubC1 wStC1).1 = IterOutcome.cont ∧
    (∃ b, RedisCall.xack "task.created" "gA" [1] b ∈
        traceDelta wStC1r (loopIter wSubC1 wStC1).2.1) ∧
    (¬ ∃ b, RedisCall.xack "task.created" "gA" [2] b ∈
        traceDelta wStC1r (loopIter wSubC1 wStC1).2.1) ∧
    LogMsg.handlerError "task.created" 2 ∈ (loopIter wSubC1 wStC1).2.2 ∧
    ((2 : Nat), ("cA" : String)) ∈
      pendingOf (loopIter wSubC1 wStC1).2.1 "task.created" "gA" := by
  have h := loop_ack_iff_handler_success wSubC1 wStC1 wBatchC1 wStC1r rfl
    (by unfold noCancel; decide) (by decide) (by decide)
  have h2 := h.2 "task.created" [((1 : Nat), ([] : Fields)), (2, [])] (by decide)
    mixedHandler rfl
  have hok := (h2 1 [] (by decide)).1 rfl
  have hbad := (h2 2 [] (by decide)).2 "boom" rfl
  exact ⟨h.1, hok, hbad.1, hbad.2.1, hbad.2.2⟩

theorem read_error_policy_witness :
    loopIter wSub7 wSt7 = (IterOutcome.sleepRetry 1, wSt7b, [LogMsg.subscriberError]) ∧
    (((loopIter wSub7 wSt7c).1 = IterOutcome.cont ∨
      (loopIter wSub7 wSt7c).1 = IterOutcome.stop) ∧
     (∀ m ∈ (loopIter wSub7 wSt7c).2.2, ∃ s mid, m = LogMsg.handlerError s mid)) ∧
    EventPublisher.publish wEv1 stFail = (Except.error RedisErr.connectionError, wSt7e) :=
  ⟨(read_error_policy wSub7 wSt7).1 wSt7b RedisErr.connectionError (by decide) (by decide),
   (read_error_policy wSub7 wSt7c).2.1 [("task.completed", [(1, [])])] wSt7d (by decide),
   (read_error_policy wSub7 wSt7c).2.2 wEv1 stFail RedisErr.connectionError wSt7e (by decide)⟩

theorem start_empty_handlers_fails_witness :
    wSub6.handlers = [] ∧
    (wSub6.startInit st0 =
      (Except.error (StartErr.valueError "No event handlers registered"), st0) ∧
     wSub6.start 3 st0 =
      (Except.error (StartErr.valueError "No event handlers registered"), st0, [])) :=
  ⟨rfl, start_empty_handlers_fails wSub6 st0 3 rfl⟩

end PMP
